import Mathlib

/-!
# Verification of the buildhuman mesh-generation core

A shallow embedding, in Lean 4, of the Rust mesh-generation core under
`app/src-tauri/src/` of the buildhuman repository: the SDF primitives
(`mesh/sdf.rs`), the mould set (`mesh/mould.rs`), the skeleton
(`mesh/skeleton.rs`), the dense voxel grid (`mesh/voxel_grid.rs`), the sparse
brick map (`mesh/brick_map.rs`), the dual-contouring extractor
(`mesh/dual_contouring.rs`), and the pipeline coordinator
(`mesh_generation.rs`), together with theorems settling the specification's
claims about them.

## Modelling conventions

* Rust `f32` is modelled by the type `F` below: an exact rational for every
  finite value, plus the IEEE-754 special values `+∞`, `−∞` and `NaN`.
  Finite arithmetic is idealised as exact rational arithmetic (no rounding,
  no overflow of finite results); the special values follow the IEEE rules
  for the operations the code uses, and `min`/`max` follow Rust's
  `f32::min`/`f32::max` (a `NaN` argument is ignored).  Decimal literals in
  the source (`0.866`, `1e-3`, ...) are read as the corresponding rationals.
* `sqrt` is not exactly representable on `ℚ`.  Square roots that the code
  only *compares* (`distance(a,b)` comparisons, `magnitude_squared`
  thresholds) are embedded as comparisons of the squared quantities, which
  is equivalent since `sqrt` is strictly monotone on `[0, ∞)`.  Square
  roots whose *value* the code uses (`magnitude`, `normalize`) are embedded
  through `sqrtQ`, a computable function that is exact on every rational
  that is the square of a rational; all concrete inputs appearing in the
  theorems below are arranged to hit only such points.
* Rust `HashMap`s are modelled as association lists (`lookupA` below);
  unspecified `HashMap` iteration order becomes the list order.
* Rust panics (`assert!`, `expect`, out-of-fuel recursion through skeleton
  parents) are modelled with `Option`/an explicit `panicked` result
  constructor; `Result<T, String>` becomes the `ok`/`err` constructors.
* The profiled-capsule primitive (`profiled_capsule_sdf`) computes
  `atan2` of the radial direction and Catmull-Rom splines at transcendental
  angles; it is therefore taken as an abstract total function parameter
  `pf` wherever the mould set dispatches on it.  No claim below depends on
  its internals; the degenerate (missing end point) branch, which the
  dispatcher itself implements, is embedded faithfully.
-/

set_option autoImplicit false

namespace BuildHuman

/-- Floor square root on naturals by upward scan (structural recursion on
fuel, so the kernel can evaluate it inside `decide`/`rfl` proofs): the
largest `k` with `k * k ≤ n`. -/
def sqrtNat (n : ℕ) : ℕ := go n 0
where
  go : ℕ → ℕ → ℕ
    | 0, acc => acc
    | fuel + 1, acc => if (acc + 1) * (acc + 1) ≤ n then go fuel (acc + 1) else acc

/-- Exact square root on rational squares: `sqrtQ q` is the real square root
of `q` whenever `q` is the square of a rational (in lowest terms both the
numerator and the denominator are then perfect squares); on other inputs it
returns some other nonnegative rational.  Every theorem below that inspects a
square-root *value* does so only at rational-square inputs. -/
def sqrtQ (q : ℚ) : ℚ :=
  (sqrtNat q.num.natAbs : ℚ) / (sqrtNat q.den : ℚ)

/-- Model of Rust `f32`: exact rationals plus the IEEE special values. -/
inductive F where
  | fin : ℚ → F
  | inf : F
  | ninf : F
  | nan : F
deriving DecidableEq

namespace F

def isNaN : F → Bool
  | nan => true
  | _ => false

def isFinite : F → Bool
  | fin _ => true
  | _ => false

def neg : F → F
  | fin q => fin (-q)
  | inf => ninf
  | ninf => inf
  | nan => nan

def add : F → F → F
  | nan, _ => nan
  | _, nan => nan
  | fin a, fin b => fin (a + b)
  | fin _, inf => inf
  | fin _, ninf => ninf
  | inf, fin _ => inf
  | inf, inf => inf
  | inf, ninf => nan
  | ninf, fin _ => ninf
  | ninf, inf => nan
  | ninf, ninf => ninf

def sub (a b : F) : F := add a (neg b)

def mul : F → F → F
  | nan, _ => nan
  | _, nan => nan
  | fin a, fin b => fin (a * b)
  | fin a, inf => if a > 0 then inf else if a < 0 then ninf else nan
  | fin a, ninf => if a > 0 then ninf else if a < 0 then inf else nan
  | inf, fin b => if b > 0 then inf else if b < 0 then ninf else nan
  | ninf, fin b => if b > 0 then ninf else if b < 0 then inf else nan
  | inf, inf => inf
  | inf, ninf => ninf
  | ninf, inf => ninf
  | ninf, ninf => inf

def div : F → F → F
  | nan, _ => nan
  | _, nan => nan
  | fin a, fin b =>
      if b = 0 then (if a = 0 then nan else if a > 0 then inf else ninf)
      else fin (a / b)
  | fin _, inf => fin 0
  | fin _, ninf => fin 0
  | inf, fin b => if b < 0 then ninf else inf
  | ninf, fin b => if b < 0 then inf else ninf
  | inf, inf => nan
  | inf, ninf => nan
  | ninf, inf => nan
  | ninf, ninf => nan

def abs : F → F
  | fin q => fin |q|
  | inf => inf
  | ninf => inf
  | nan => nan

/-- Strict `<` on `f32` as a boolean: any comparison with `NaN` is false. -/
def blt : F → F → Bool
  | fin a, fin b => a < b
  | fin _, inf => true
  | fin _, ninf => false
  | inf, _ => false
  | ninf, fin _ => true
  | ninf, inf => true
  | ninf, ninf => false
  | nan, _ => false
  | _, nan => false

/-- Non-strict `<=` on `f32` as a boolean: any comparison with `NaN` is
false. -/
def ble : F → F → Bool
  | fin a, fin b => a ≤ b
  | fin _, inf => true
  | fin _, ninf => false
  | inf, inf => true
  | inf, fin _ => false
  | inf, ninf => false
  | ninf, nan => false
  | ninf, _ => true
  | nan, _ => false
  | _, nan => false

/-- Rust `f32::min`: if one argument is `NaN` the other is returned. -/
def fmin : F → F → F
  | nan, b => b
  | a, nan => a
  | fin a, fin b => fin (min a b)
  | fin _, ninf => ninf
  | fin a, inf => fin a
  | inf, b => b
  | ninf, _ => ninf

/-- Rust `f32::max`: if one argument is `NaN` the other is returned. -/
def fmax : F → F → F
  | nan, b => b
  | a, nan => a
  | fin a, fin b => fin (max a b)
  | fin a, ninf => fin a
  | fin _, inf => inf
  | inf, _ => inf
  | ninf, b => b

/-- Rust `f32::clamp` (assuming `lo <= hi`, as everywhere in this code):
comparison-based, so a `NaN` input propagates. -/
def clamp (x lo hi : F) : F :=
  if blt x lo then lo else if blt hi x then hi else x

/-- Model of `f32::sqrt`: negative finite inputs and `−∞` give `NaN`. -/
def sqrtF : F → F
  | fin q => if q < 0 then nan else fin (sqrtQ q)
  | inf => inf
  | ninf => nan
  | nan => nan

end F

/-- Model of `nalgebra::Vector3<f32>`. -/
structure Vec3 where
  x : F
  y : F
  z : F
deriving DecidableEq

/-- Model of `nalgebra::Point3<f32>`. -/
structure Pt3 where
  x : F
  y : F
  z : F
deriving DecidableEq

namespace Vec3

def zero : Vec3 := ⟨F.fin 0, F.fin 0, F.fin 0⟩

def add (a b : Vec3) : Vec3 := ⟨F.add a.x b.x, F.add a.y b.y, F.add a.z b.z⟩

def sub (a b : Vec3) : Vec3 := ⟨F.sub a.x b.x, F.sub a.y b.y, F.sub a.z b.z⟩

def smul (a : Vec3) (s : F) : Vec3 := ⟨F.mul a.x s, F.mul a.y s, F.mul a.z s⟩

def sdiv (a : Vec3) (s : F) : Vec3 := ⟨F.div a.x s, F.div a.y s, F.div a.z s⟩

def dot (a b : Vec3) : F :=
  F.add (F.add (F.mul a.x b.x) (F.mul a.y b.y)) (F.mul a.z b.z)

def cross (a b : Vec3) : Vec3 :=
  ⟨F.sub (F.mul a.y b.z) (F.mul a.z b.y),
   F.sub (F.mul a.z b.x) (F.mul a.x b.z),
   F.sub (F.mul a.x b.y) (F.mul a.y b.x)⟩

/-- Model of `nalgebra` `magnitude_squared` (= `norm_squared`). -/
def magnitudeSquared (a : Vec3) : F := dot a a

/-- Model of `nalgebra` `magnitude` (= `norm`), through `sqrtF`. -/
def magnitude (a : Vec3) : F := F.sqrtF (magnitudeSquared a)

/-- Model of `nalgebra` `normalize`: divide componentwise by the norm. -/
def normalize (a : Vec3) : Vec3 := sdiv a (magnitude a)

end Vec3

namespace Pt3

/-- Difference of points, `Point3 - Point3 : Vector3`. -/
def sub (a b : Pt3) : Vec3 := ⟨F.sub a.x b.x, F.sub a.y b.y, F.sub a.z b.z⟩

/-- Translation of a point, `Point3 + Vector3 : Point3`. -/
def addV (a : Pt3) (v : Vec3) : Pt3 := ⟨F.add a.x v.x, F.add a.y v.y, F.add a.z v.z⟩

/-- Model of `nalgebra` `Point3::lerp`: `a + (b - a) * t`. -/
def lerp (a b : Pt3) (t : F) : Pt3 := addV a (Vec3.smul (sub b a) t)

def allFinite (p : Pt3) : Bool := p.x.isFinite && p.y.isFinite && p.z.isFinite

end Pt3

/-- Source `types.rs` `AABB`. -/
structure AABB where
  min : Pt3
  max : Pt3
deriving DecidableEq

/-- Association-list lookup: the model of `HashMap::get`.  The first entry
with the given key wins, matching a map with unique keys. -/
def lookupA {α β : Type} [DecidableEq α] : List (α × β) → α → Option β
  | [], _ => none
  | (k, v) :: rest, a => if k = a then some v else lookupA rest a

theorem lookupA_cons_self {α β : Type} [DecidableEq α] (k : α) (v : β)
    (l : List (α × β)) : lookupA ((k, v) :: l) k = some v := by
  simp [lookupA]

theorem lookupA_cons_ne {α β : Type} [DecidableEq α] {k a : α} (v : β)
    (l : List (α × β)) (h : k ≠ a) : lookupA ((k, v) :: l) a = lookupA l a := by
  simp [lookupA, h]

/-! ## `mesh/sdf.rs` -/

/-- Source `sdf.rs` `EPSILON`. -/
def EPSILON : F := F.fin (1/1000)

/-- Source `sdf.rs` `sphere_sdf`: `(point - center).magnitude() - radius`. -/
def sphere_sdf (point center : Pt3) (radius : F) : F :=
  F.sub (Vec3.magnitude (Pt3.sub point center)) radius

/-- Source `sdf.rs` `capsule_sdf`. -/
def capsule_sdf (point a b : Pt3) (radius : F) : F :=
  let ba := Pt3.sub b a
  let pa := Pt3.sub point a
  let ba_dot := Vec3.magnitudeSquared ba
  if F.blt ba_dot (F.fin (1/100000000)) then
    -- Degenerate capsule (a == b), treat as sphere
    F.sub (Vec3.magnitude (Pt3.sub point a)) radius
  else
    let pa_dot := Vec3.dot pa ba
    let h := F.clamp (F.div pa_dot ba_dot) (F.fin 0) (F.fin 1)
    let closest := Pt3.addV a (Vec3.smul ba h)
    F.sub (Vec3.magnitude (Pt3.sub point closest)) radius

/-- Source `sdf.rs` `smooth_min_poly`:
`let h = (k - (a - b).abs()).max(0.0); a.min(b) - h * h * 0.25 / k`. -/
def smooth_min_poly (a b k : F) : F :=
  let h := F.fmax (F.sub k (F.abs (F.sub a b))) (F.fin 0)
  F.sub (F.fmin a b) (F.div (F.mul (F.mul h h) (F.fin (1/4))) k)

/-- Source `sdf.rs` `compute_gradient`: central differences with `ε = 1e-3`. -/
def compute_gradient (point : Pt3) (evaluate_sdf : Pt3 → F) : Vec3 :=
  let x := point.x
  let y := point.y
  let z := point.z
  let twoEps := F.mul (F.fin 2) EPSILON
  ⟨F.div (F.sub (evaluate_sdf ⟨F.add x EPSILON, y, z⟩)
                (evaluate_sdf ⟨F.sub x EPSILON, y, z⟩)) twoEps,
   F.div (F.sub (evaluate_sdf ⟨x, F.add y EPSILON, z⟩)
                (evaluate_sdf ⟨x, F.sub y EPSILON, z⟩)) twoEps,
   F.div (F.sub (evaluate_sdf ⟨x, y, F.add z EPSILON⟩)
                (evaluate_sdf ⟨x, y, F.sub z EPSILON⟩)) twoEps⟩

/-- The smooth-min formula exactly as the specification writes it
(§4.1): `smin(a, b, k) = min(a, b) − max(0, k − |a−b|)² / (4k)`, read over
the rationals.  Kept separate from `smooth_min_poly`, which is translated
from the source, so the two can be compared. -/
def smin_spec (a b k : ℚ) : ℚ :=
  min a b - (max 0 (k - |a - b|))^2 / (4 * k)

/-! ## `mesh/skeleton.rs`

Only the totality structure of the skeleton matters to the claims below
(`transform_point_to_world` either produces a point or fails: a missing
joint panics through `expect`, and a parent cycle never terminates; both are
modelled as `none` via a fuel bound of one more than the joint count, which
every acyclic parent chain satisfies). -/

/-- A unit quaternion `(w, x, y, z)`; the host guarantees unit length. -/
structure Quat where
  w : F
  x : F
  y : F
  z : F
deriving DecidableEq

/-- Model of `Isometry3<f32>`: a rotation followed by a translation. -/
structure Transform where
  rotation : Quat
  translation : Vec3
deriving DecidableEq

namespace Quat

def mul (p q : Quat) : Quat :=
  ⟨F.sub (F.sub (F.sub (F.mul p.w q.w) (F.mul p.x q.x)) (F.mul p.y q.y)) (F.mul p.z q.z),
   F.sub (F.add (F.add (F.mul p.w q.x) (F.mul p.x q.w)) (F.mul p.y q.z)) (F.mul p.z q.y),
   F.add (F.sub (F.add (F.mul p.w q.y) (F.mul p.y q.w)) (F.mul p.x q.z)) (F.mul p.z q.x),
   F.sub (F.add (F.add (F.mul p.w q.z) (F.mul p.z q.w)) (F.mul p.x q.y)) (F.mul p.y q.x)⟩

/-- Rotate a vector by a unit quaternion: `v + w·t + qv × t` with
`t = 2 (qv × v)`. -/
def rotate (q : Quat) (v : Vec3) : Vec3 :=
  let qv : Vec3 := ⟨q.x, q.y, q.z⟩
  let t := Vec3.smul (Vec3.cross qv v) (F.fin 2)
  Vec3.add (Vec3.add v (Vec3.smul t q.w)) (Vec3.cross qv t)

end Quat

namespace Transform

/-- Isometry composition `(R₁,t₁) ∘ (R₂,t₂) = (R₁R₂, R₁ t₂ + t₁)`. -/
def compose (a b : Transform) : Transform :=
  ⟨Quat.mul a.rotation b.rotation,
   Vec3.add (Quat.rotate a.rotation b.translation) a.translation⟩

/-- Application `transform * point`. -/
def apply (t : Transform) (p : Pt3) : Pt3 :=
  let r := Quat.rotate t.rotation ⟨p.x, p.y, p.z⟩
  ⟨F.add r.x t.translation.x, F.add r.y t.translation.y, F.add r.z t.translation.z⟩

end Transform

/-- Source `skeleton.rs` `Joint`. -/
structure Joint where
  id : String
  local_offset : Vec3
  local_rotation : Quat
  parent_id : Option String
  children : List String
deriving DecidableEq

/-- Source `skeleton.rs` `Skeleton` (the transform cache is behaviour-transparent
and omitted; `transform_point_to_world` goes through the uncached
`compute_world_transform` in the source). -/
structure Skeleton where
  joints : List (String × Joint)
deriving DecidableEq

namespace Skeleton

/-- Source `compute_world_transform`, with fuel.  `none` models the `expect`
panic on a missing joint and the divergence on a parent cycle. -/
def computeWorldTransform (sk : Skeleton) : ℕ → String → Option Transform
  | 0, _ => none
  | fuel + 1, joint_id =>
    match lookupA sk.joints joint_id with
    | none => none
    | some joint =>
      let local_transform : Transform := ⟨joint.local_rotation, joint.local_offset⟩
      match joint.parent_id with
      | some parent_id =>
        (computeWorldTransform sk fuel parent_id).map
          (fun parent_transform => Transform.compose parent_transform local_transform)
      | none => some local_transform

/-- Source `transform_point_to_world`. -/
def transform_point_to_world (sk : Skeleton) (joint_id : String) (p : Pt3) :
    Option Pt3 :=
  (sk.computeWorldTransform (sk.joints.length + 1) joint_id).map
    (fun t => Transform.apply t p)

end Skeleton

/-! ## `mesh/mould.rs` -/

inductive MouldShape where
  | Sphere
  | Capsule
  | ProfiledCapsule
deriving DecidableEq

/-- Source `mould.rs` `Mould`. -/
structure Mould where
  id : String
  shape : MouldShape
  center : Pt3
  radius : F
  blend_radius : F
  parent_joint_id : Option String
  end_point : Option Pt3
  radial_profiles : Option (List (List F))
  use_splines : Bool
deriving DecidableEq

/-- Source `mould.rs` `CachedMouldTransform`. -/
structure CachedMouldTransform where
  world_center : Pt3
  world_end : Option Pt3
deriving DecidableEq

/-- Source `mould.rs` `MouldManager`.  The `HashMap`s of moulds and of cached
transforms are modelled as lists; `HashMap` iteration order becomes the
list order. -/
structure MouldManager where
  moulds : List Mould
  skeleton : Option Skeleton
  mould_cache : List (String × CachedMouldTransform)
  cache_valid : Bool

/-- The type of the abstract profiled-capsule primitive: arguments are
`(point, a, b, radial_profiles, use_splines)` as in
`sdf.rs::profiled_capsule_sdf`. -/
def ProfiledSdf : Type := Pt3 → Pt3 → Pt3 → List (List F) → Bool → F

/-- Model of `ring.iter().sum::<f32>()`. -/
def sumF (ring : List F) : F := ring.foldl F.add (F.fin 0)

/-- The per-mould branch of `MouldManager::evaluate_sdf`'s match on
`mould.shape`, given that mould's cache entry.  `none` models the
`expect("ProfiledCapsule must have radial_profiles")` panic. -/
def mouldSdfBranch (pf : ProfiledSdf) (point : Pt3) (mould : Mould)
    (cached : CachedMouldTransform) : Option F :=
  match mould.shape with
  | .Sphere => some (sphere_sdf point cached.world_center mould.radius)
  | .Capsule =>
    match cached.world_end with
    | some world_end => some (capsule_sdf point cached.world_center world_end mould.radius)
    | none =>
      -- Degenerate capsule, treat as sphere
      some (sphere_sdf point cached.world_center mould.radius)
  | .ProfiledCapsule =>
    match cached.world_end with
    | some world_end =>
      match mould.radial_profiles with
      | some radial_profiles =>
        some (pf point cached.world_center world_end radial_profiles mould.use_splines)
      | none => none
    | none =>
      -- Degenerate profiled capsule: sphere with first segment's average radius
      let radius : F :=
        match mould.radial_profiles with
        | some (ring :: _) => F.div (sumF ring) (F.fin (ring.length : ℚ))
        | some [] => mould.radius
        | none => mould.radius
      some (sphere_sdf point cached.world_center radius)

/-- The loop body of `MouldManager::evaluate_sdf`: folds `smooth_min_poly`
over the moulds, failing (`none`) on the `expect("Cache not built")` panic
or a profiled capsule without profiles. -/
def evalLoop (pf : ProfiledSdf) (cache : List (String × CachedMouldTransform))
    (point : Pt3) : List Mould → F → Option F
  | [], result => some result
  | mould :: rest, result =>
    match lookupA cache mould.id with
    | none => none
    | some cached =>
      match mouldSdfBranch pf point mould cached with
      | none => none
      | some sdf_value =>
        evalLoop pf cache point rest (smooth_min_poly result sdf_value mould.blend_radius)

/-- Source `mould.rs` `MouldManager::evaluate_sdf`.  Empty mould set returns `1.0`
(outside); otherwise reduce all moulds with `smooth_min_poly` starting from
`f32::INFINITY`, using each mould's own `blend_radius`. -/
def MouldManager.evaluate_sdf (pf : ProfiledSdf) (mm : MouldManager) (point : Pt3) :
    Option F :=
  if mm.moulds.isEmpty then some (F.fin 1)
  else evalLoop pf mm.mould_cache point mm.moulds F.inf

/-- One mould on which the `evaluate_sdf` loop body cannot panic: it has a
cache entry, and it is not a profiled capsule with a cached end point but
missing radial profiles. -/
def safeMould (cache : List (String × CachedMouldTransform)) (m : Mould) : Bool :=
  match lookupA cache m.id with
  | none => false
  | some cached =>
    match m.shape, cached.world_end, m.radial_profiles with
    | .ProfiledCapsule, some _, none => false
    | _, _, _ => true

/-- A mould manager on which `evaluate_sdf` cannot panic: every mould has a
cache entry, and no profiled capsule with a cached end point is missing its
radial profiles. -/
def MouldManager.evalSafe (mm : MouldManager) : Bool :=
  mm.moulds.all (safeMould mm.mould_cache)

/-- The value `evaluate_sdf` folds in for one mould, on managers where it
cannot panic (junk `NaN` on the unreachable panic branches). -/
def mouldSdfValue (pf : ProfiledSdf) (cache : List (String × CachedMouldTransform))
    (point : Pt3) (mould : Mould) : F :=
  match lookupA cache mould.id with
  | none => F.nan
  | some cached => (mouldSdfBranch pf point mould cached).getD F.nan

/-- Total restriction of `evaluate_sdf` to `evalSafe` managers: the
pairwise `smooth_min_poly` reduction as a fold. -/
def MouldManager.evaluateSdfTotal (pf : ProfiledSdf) (mm : MouldManager)
    (point : Pt3) : F :=
  if mm.moulds.isEmpty then F.fin 1
  else mm.moulds.foldl
    (fun result m => smooth_min_poly result (mouldSdfValue pf mm.mould_cache point m) m.blend_radius)
    F.inf

/-- Source `mould.rs` `MouldManager::rebuild_cache`.  `none` models the panic of
`transform_point_to_world` on an unresolved parent joint.  With no skeleton
the source returns early with a cleared cache and `cache_valid` left false. -/
def MouldManager.rebuild_cache (mm : MouldManager) : Option MouldManager :=
  if mm.cache_valid then some mm
  else
    match mm.skeleton with
    | none => some { mm with mould_cache := [] }
    | some sk =>
      (mm.moulds.mapM fun (m : Mould) =>
        match m.parent_joint_id with
        | some joint_id =>
          match sk.transform_point_to_world joint_id m.center with
          | none => none
          | some center =>
            match m.end_point with
            | some ep =>
              (sk.transform_point_to_world joint_id ep).map
                (fun e => (m.id, (⟨center, some e⟩ : CachedMouldTransform)))
            | none => some (m.id, (⟨center, none⟩ : CachedMouldTransform))
        | none => some (m.id, (⟨m.center, m.end_point⟩ : CachedMouldTransform))).map
        fun cache => { mm with mould_cache := cache, cache_valid := true }

/-- A safe mould has a cache entry whose dispatch branch produces a value. -/
theorem safeMould_branch (pf : ProfiledSdf) (point : Pt3)
    (cache : List (String × CachedMouldTransform)) (m : Mould)
    (h : safeMould cache m = true) :
    ∃ cached, lookupA cache m.id = some cached ∧
      mouldSdfBranch pf point m cached = some (mouldSdfValue pf cache point m) := by
  unfold safeMould at h
  cases hlook : lookupA cache m.id with
  | none => rw [hlook] at h; simp at h
  | some cached =>
    rw [hlook] at h
    have h' : (match m.shape, cached.world_end, m.radial_profiles with
        | .ProfiledCapsule, some _, none => false
        | _, _, _ => true) = true := h
    refine ⟨cached, rfl, ?_⟩
    have hval : mouldSdfValue pf cache point m =
        (mouldSdfBranch pf point m cached).getD F.nan := by
      unfold mouldSdfValue; rw [hlook]
    rw [hval]
    unfold mouldSdfBranch
    cases hs : m.shape with
    | Sphere => rfl
    | Capsule => cases cached.world_end <;> rfl
    | ProfiledCapsule =>
      cases he : cached.world_end with
      | none => rfl
      | some e =>
        cases hp : m.radial_profiles with
        | none => rw [hs, he, hp] at h'; simp at h'
        | some profs => rfl

/-- The `evaluate_sdf` loop, on safe moulds, is the `smooth_min_poly` fold. -/
theorem evalLoop_eq_foldl (pf : ProfiledSdf)
    (cache : List (String × CachedMouldTransform)) (point : Pt3) :
    ∀ (l : List Mould) (acc : F), (∀ m ∈ l, safeMould cache m = true) →
    evalLoop pf cache point l acc =
      some (l.foldl
        (fun result m => smooth_min_poly result (mouldSdfValue pf cache point m) m.blend_radius)
        acc)
  | [], acc, _ => rfl
  | m :: rest, acc, h => by
    obtain ⟨cached, hlook, hbranch⟩ :=
      safeMould_branch pf point cache m (h m (List.mem_cons_self m rest))
    simp only [evalLoop, hlook, hbranch, List.foldl_cons]
    exact evalLoop_eq_foldl pf cache point rest _
      (fun x hx => h x (List.mem_cons_of_mem m hx))

/-- On an `evalSafe` manager, `evaluate_sdf` succeeds and computes the
`smooth_min_poly` fold. -/
theorem evaluate_sdf_of_evalSafe (pf : ProfiledSdf) (mm : MouldManager) (point : Pt3)
    (h : mm.evalSafe = true) :
    mm.evaluate_sdf pf point = some (mm.evaluateSdfTotal pf point) := by
  unfold MouldManager.evaluate_sdf MouldManager.evaluateSdfTotal
  by_cases hemp : mm.moulds.isEmpty
  · simp [hemp]
  · simp only [hemp, Bool.false_eq_true, if_false]
    unfold MouldManager.evalSafe at h
    rw [List.all_eq_true] at h
    exact evalLoop_eq_foldl pf mm.mould_cache point mm.moulds F.inf h

/-- A mould that is not safe makes its loop body fail. -/
theorem mouldBody_none_of_bad (pf : ProfiledSdf)
    (cache : List (String × CachedMouldTransform)) (point : Pt3) (m : Mould)
    (hbad : safeMould cache m = false) :
    lookupA cache m.id = none ∨
      ∃ cached, lookupA cache m.id = some cached ∧
        mouldSdfBranch pf point m cached = none := by
  unfold safeMould at hbad
  cases hlook : lookupA cache m.id with
  | none => exact Or.inl rfl
  | some cached =>
    rw [hlook] at hbad
    have hbad' : (match m.shape, cached.world_end, m.radial_profiles with
        | .ProfiledCapsule, some _, none => false
        | _, _, _ => true) = false := hbad
    refine Or.inr ⟨cached, rfl, ?_⟩
    unfold mouldSdfBranch
    cases hs : m.shape with
    | Sphere => rw [hs] at hbad'; simp at hbad'
    | Capsule => rw [hs] at hbad'; simp at hbad'
    | ProfiledCapsule =>
      cases he : cached.world_end with
      | none => rw [hs, he] at hbad'; simp at hbad'
      | some e =>
        cases hp : m.radial_profiles with
        | none => rfl
        | some profs => rw [hs, he, hp] at hbad'; simp at hbad'

/-- The loop fails as soon as the list contains an unsafe mould. -/
theorem evalLoop_none_of_bad (pf : ProfiledSdf)
    (cache : List (String × CachedMouldTransform)) (point : Pt3) :
    ∀ (l : List Mould) (acc : F), (∃ m ∈ l, safeMould cache m = false) →
    evalLoop pf cache point l acc = none
  | [], _, h => by simp at h
  | hd :: rest, acc, h => by
    simp only [evalLoop]
    by_cases hhd : safeMould cache hd = false
    · rcases mouldBody_none_of_bad pf cache point hd hhd with hl | ⟨cached, hl, hbr⟩
      · simp only [hl]
      · simp only [hl, hbr]
    · obtain ⟨m, hmem, hbad⟩ := h
      have hmem' : m ∈ rest := by
        rcases List.mem_cons.mp hmem with heq | hmem'
        · exact absurd (heq ▸ hbad) hhd
        · exact hmem'
      cases hlook : lookupA cache hd.id with
      | none => simp only [hlook]
      | some cached =>
        cases hbr : mouldSdfBranch pf point hd cached with
        | none => simp only [hlook, hbr]
        | some v =>
          simp only [hlook, hbr]
          exact evalLoop_none_of_bad pf cache point rest _ ⟨m, hmem', hbad⟩

/-- On a manager that is not `evalSafe`, `evaluate_sdf` panics (at every
point): the failing mould makes the loop return `none`. -/
theorem evaluate_sdf_of_not_evalSafe (pf : ProfiledSdf) (mm : MouldManager)
    (point : Pt3) (h : mm.evalSafe = false) :
    mm.evaluate_sdf pf point = none := by
  unfold MouldManager.evaluate_sdf
  unfold MouldManager.evalSafe at h
  rw [List.all_eq_false] at h
  obtain ⟨m, hmem, hbad⟩ := h
  have hne : ¬ mm.moulds.isEmpty = true := by
    intro hemp
    rw [List.isEmpty_iff] at hemp
    rw [hemp] at hmem
    simp at hmem
  simp only [hne, Bool.false_eq_true, if_false]
  exact evalLoop_none_of_bad pf mm.mould_cache point mm.moulds F.inf
    ⟨m, hmem, by simpa using hbad⟩

/-! ## `mesh/voxel_grid.rs` -/

/-- Source `voxel_grid.rs` `VoxelGrid`. -/
structure VoxelGrid where
  resolution : ℕ
  bounds : AABB
  data : List F
  cell_size : F

namespace VoxelGrid

/-- Source `VoxelGrid::new`: `cell_size = size.x.max(size.y).max(size.z) /
(resolution as f32 - 1.0)`; data zero-filled, length `resolution³`. -/
def new (resolution : ℕ) (bounds : AABB) : VoxelGrid :=
  let size := Pt3.sub bounds.max bounds.min
  let cell_size := F.div (F.fmax (F.fmax size.x size.y) size.z)
    (F.fin ((resolution : ℚ) - 1))
  { resolution := resolution
    bounds := bounds
    data := List.replicate (resolution * resolution * resolution) (F.fin 0)
    cell_size := cell_size }

/-- Source `VoxelGrid::evaluate`: fill each flat index from the SDF at the
corresponding integer grid point.  `none` models an `evaluate_sdf` panic in
any worker. -/
def evaluate (pf : ProfiledSdf) (grid : VoxelGrid) (mm : MouldManager) :
    Option VoxelGrid :=
  ((List.range grid.data.length).mapM fun index =>
    let x := index % grid.resolution
    let y := (index / grid.resolution) % grid.resolution
    let z := index / (grid.resolution * grid.resolution)
    let pos := Pt3.addV grid.bounds.min
      ⟨F.mul (F.fin (x : ℚ)) grid.cell_size,
       F.mul (F.fin (y : ℚ)) grid.cell_size,
       F.mul (F.fin (z : ℚ)) grid.cell_size⟩
    mm.evaluate_sdf pf pos).map
    fun data => { grid with data := data }

/-- Source `VoxelGrid::get`: `data[x + y*res + z*res*res]`.  All uses below
are in range; the default is never read. -/
def get (grid : VoxelGrid) (x y z : ℕ) : F :=
  grid.data.getD (x + y * grid.resolution + z * grid.resolution * grid.resolution)
    (F.fin 0)

/-- Source `VoxelGrid::get_position`: `bounds.min + (x, y, z) * cell_size`
at possibly fractional grid coordinates. -/
def get_position (grid : VoxelGrid) (x y z : F) : Pt3 :=
  Pt3.addV grid.bounds.min
    ⟨F.mul x grid.cell_size, F.mul y grid.cell_size, F.mul z grid.cell_size⟩

end VoxelGrid

/-! ## `mesh/brick_map.rs` -/

/-- Source `brick_map.rs` `BRICK_SIZE`. -/
def BRICK_SIZE : ℕ := 8

/-- Source `brick_map.rs` `BrickCoord` (an `i32` triple). -/
structure BrickCoord where
  x : ℤ
  y : ℤ
  z : ℤ
deriving DecidableEq

/-- Source `brick_map.rs` `Brick`: 8×8×8 voxels, flattened `[z][y][x]`. -/
structure Brick where
  values : List F
deriving DecidableEq

namespace Brick

/-- Source `Brick::new`: all voxels `f32::INFINITY`. -/
def new : Brick := ⟨List.replicate (BRICK_SIZE * BRICK_SIZE * BRICK_SIZE) F.inf⟩

/-- Source `Brick::get` at local coordinates; within `0..8` the index is
always in range of a well-formed brick. -/
def get (b : Brick) (x y z : ℕ) : F :=
  b.values.getD (z * BRICK_SIZE * BRICK_SIZE + y * BRICK_SIZE + x) F.inf

/-- Source `Brick::set` at local coordinates. -/
def set (b : Brick) (x y z : ℕ) (value : F) : Brick :=
  ⟨b.values.set (z * BRICK_SIZE * BRICK_SIZE + y * BRICK_SIZE + x) value⟩

end Brick

/-- Replace the first entry with the given key, or append: the model of
`HashMap::insert` on maps with unique keys. -/
def insertA {α β : Type} [DecidableEq α] : List (α × β) → α → β → List (α × β)
  | [], k, v => [(k, v)]
  | (k', v') :: rest, k, v =>
    if k' = k then (k, v) :: rest else (k', v') :: insertA rest k v

/-- Remove every entry with the given key: the model of `HashMap::remove`
(extensionally equal on maps with unique keys). -/
def eraseA {α β : Type} [DecidableEq α] : List (α × β) → α → List (α × β)
  | [], _ => []
  | (k', v') :: rest, k =>
    if k' = k then eraseA rest k else (k', v') :: eraseA rest k

theorem lookupA_insertA_self {α β : Type} [DecidableEq α] (l : List (α × β))
    (k : α) (v : β) : lookupA (insertA l k v) k = some v := by
  induction l with
  | nil => simp [insertA, lookupA]
  | cons e rest ih =>
    cases e with
    | mk k' v' =>
      by_cases h : k' = k
      · subst h
        simp [insertA, lookupA]
      · simp [insertA, lookupA, h, ih]

theorem lookupA_insertA_ne {α β : Type} [DecidableEq α] (l : List (α × β))
    {k a : α} (v : β) (h : k ≠ a) : lookupA (insertA l k v) a = lookupA l a := by
  induction l with
  | nil => simp [insertA, lookupA, h]
  | cons e rest ih =>
    cases e with
    | mk k' v' =>
      by_cases he : k' = k
      · subst he
        simp [insertA, lookupA, h]
      · by_cases ha : k' = a
        · subst ha
          simp [insertA, lookupA, he]
        · simp [insertA, lookupA, he, ha, ih]

theorem lookupA_eraseA_self {α β : Type} [DecidableEq α] (l : List (α × β))
    (k : α) : lookupA (eraseA l k) k = none := by
  induction l with
  | nil => rfl
  | cons e rest ih =>
    cases e with
    | mk k' v' =>
      by_cases h : k' = k
      · simpa [eraseA, h] using ih
      · simpa [eraseA, h, lookupA] using ih

theorem lookupA_eraseA_ne {α β : Type} [DecidableEq α] (l : List (α × β))
    {k a : α} (h : k ≠ a) : lookupA (eraseA l k) a = lookupA l a := by
  induction l with
  | nil => rfl
  | cons e rest ih =>
    cases e with
    | mk k' v' =>
      by_cases hk : k' = k
      · subst hk
        simp [eraseA, lookupA, h, ih]
      · by_cases ha : k' = a
        · subst ha
          simp [eraseA, lookupA, hk]
        · simp [eraseA, lookupA, hk, ha, ih]

/-- Source `brick_map.rs` `BrickMap`. -/
structure BrickMap where
  resolution : ℕ
  bounds : AABB
  bricks : List (BrickCoord × Brick)
  brick_count : ℕ
  voxel_size : F

namespace BrickMap

/-- Source `BrickMap::new`.  `none` models the
`assert!(resolution % BRICK_SIZE == 0, ...)` panic. -/
def new (resolution : ℕ) (bounds : AABB) : Option BrickMap :=
  if resolution % BRICK_SIZE = 0 then
    some
      { resolution := resolution
        bounds := bounds
        bricks := []
        brick_count := resolution / BRICK_SIZE
        voxel_size := F.div (F.sub bounds.max.x bounds.min.x) (F.fin (resolution : ℚ)) }
  else none

/-- Source `voxel_to_brick_coord`. -/
def voxel_to_brick_coord (x y z : ℕ) : BrickCoord :=
  ⟨(x / BRICK_SIZE : ℕ), (y / BRICK_SIZE : ℕ), (z / BRICK_SIZE : ℕ)⟩

/-- Source `BrickMap::get`: a missing brick reads as `f32::INFINITY`. -/
def get (bm : BrickMap) (x y z : ℕ) : F :=
  match lookupA bm.bricks (voxel_to_brick_coord x y z) with
  | some brick => brick.get (x % BRICK_SIZE) (y % BRICK_SIZE) (z % BRICK_SIZE)
  | none => F.inf

/-- Source `BrickMap::set`: allocate the brick if absent, then store. -/
def set (bm : BrickMap) (x y z : ℕ) (value : F) : BrickMap :=
  let coord := voxel_to_brick_coord x y z
  let brick := (lookupA bm.bricks coord).getD Brick.new
  let stored := brick.set (x % BRICK_SIZE) (y % BRICK_SIZE) (z % BRICK_SIZE) value
  { bm with bricks := insertA bm.bricks coord stored }

/-- Source `BrickMap::get_position`: `bounds.min + (x, y, z) * voxel_size`
(the x-extent-derived voxel size scales all three axes). -/
def get_position (bm : BrickMap) (x y z : F) : Pt3 :=
  ⟨F.add bm.bounds.min.x (F.mul x bm.voxel_size),
   F.add bm.bounds.min.y (F.mul y bm.voxel_size),
   F.add bm.bounds.min.z (F.mul z bm.voxel_size)⟩

/-- Sampling position of a voxel: its cell center (`+0.5` on each axis), as
in pass 2 of `allocate_surface_bricks`. -/
def voxelSamplePos (bm : BrickMap) (x y z : ℕ) : Pt3 :=
  bm.get_position (F.fin ((x : ℚ) + 1/2)) (F.fin ((y : ℚ) + 1/2)) (F.fin ((z : ℚ) + 1/2))

/-- Source pass-1 threshold: the brick diagonal
`voxel_size * BRICK_SIZE as f32 * 0.866`. -/
def brickDiagonal (bm : BrickMap) : F :=
  F.mul (F.mul bm.voxel_size (F.fin (BRICK_SIZE : ℚ))) (F.fin (433/500))

/-- World position of a brick center, as computed in pass 1 of
`allocate_surface_bricks`: the voxel `b * BRICK_SIZE + BRICK_SIZE/2` on each
axis, scaled into world space. -/
def brickCenter (bm : BrickMap) (c : BrickCoord) : Pt3 :=
  ⟨F.add bm.bounds.min.x (F.mul (F.fin ((c.x * BRICK_SIZE + BRICK_SIZE / 2 : ℤ) : ℚ)) bm.voxel_size),
   F.add bm.bounds.min.y (F.mul (F.fin ((c.y * BRICK_SIZE + BRICK_SIZE / 2 : ℤ) : ℚ)) bm.voxel_size),
   F.add bm.bounds.min.z (F.mul (F.fin ((c.z * BRICK_SIZE + BRICK_SIZE / 2 : ℤ) : ℚ)) bm.voxel_size)⟩

/-- All brick coordinates of the grid, in the pass-1 enumeration order
(`bz` outer, `by`, `bx` inner). -/
def allBrickCoords (bm : BrickMap) : List BrickCoord :=
  (List.range bm.brick_count).flatMap fun bz =>
    (List.range bm.brick_count).flatMap fun b_y =>
      (List.range bm.brick_count).map fun bx =>
        ⟨Int.ofNat bx, Int.ofNat b_y, Int.ofNat bz⟩

/-- The global voxel coordinates of one brick, in the pass-2 enumeration
order (`lz` outer, `ly`, `lx` inner); `i32 as u32` on the nonnegative
coordinates appearing here is `Int.toNat`. -/
def brickVoxels (c : BrickCoord) : List (ℕ × ℕ × ℕ) :=
  (List.range BRICK_SIZE).flatMap fun lz =>
    (List.range BRICK_SIZE).flatMap fun ly =>
      (List.range BRICK_SIZE).map fun lx =>
        (c.x.toNat * BRICK_SIZE + lx, c.y.toNat * BRICK_SIZE + ly, c.z.toNat * BRICK_SIZE + lz)

/-- Source `BrickMap::evaluate_allocated_bricks`: evaluate the SDF at the
cell center of every voxel of every allocated brick and store the results.
`none` models an `evaluate_sdf` panic. -/
def evaluate_allocated_bricks (pf : ProfiledSdf) (mm : MouldManager)
    (bm : BrickMap) : Option BrickMap :=
  let voxel_coords := bm.bricks.flatMap fun e => brickVoxels e.1
  (voxel_coords.mapM fun v =>
      (mm.evaluate_sdf pf (bm.voxelSamplePos v.1 v.2.1 v.2.2)).map
        fun sdf => (v.1, v.2.1, v.2.2, sdf)).map
    fun values => values.foldl (fun m v => m.set v.1 v.2.1 v.2.2.1 v.2.2.2) bm

/-- Source `BrickMap::allocate_surface_bricks`: pass 1 keeps the bricks
whose center SDF satisfies `|sdf| < surface_thickness + diagonal`; pass 2
allocates them and samples every voxel. -/
def allocate_surface_bricks (pf : ProfiledSdf) (bm : BrickMap)
    (mm : MouldManager) (surface_thickness : F) : Option BrickMap :=
  ((bm.allBrickCoords.mapM fun c =>
      (mm.evaluate_sdf pf (bm.brickCenter c)).map fun sdf =>
        if F.blt sdf.abs (F.add surface_thickness bm.brickDiagonal) then some c
        else none).map List.reduceOption).bind
    fun surface_bricks =>
      let allocated :=
        { bm with bricks :=
            surface_bricks.foldl (fun l c => insertA l c Brick.new) bm.bricks }
      evaluate_allocated_bricks pf mm allocated

/-- World-space bounding box of one brick. -/
def brickBox (bm : BrickMap) (c : BrickCoord) : AABB :=
  ⟨bm.get_position (F.fin ((c.x * BRICK_SIZE : ℤ) : ℚ))
      (F.fin ((c.y * BRICK_SIZE : ℤ) : ℚ)) (F.fin ((c.z * BRICK_SIZE : ℤ) : ℚ)),
   bm.get_position (F.fin (((c.x + 1) * BRICK_SIZE : ℤ) : ℚ))
      (F.fin (((c.y + 1) * BRICK_SIZE : ℤ) : ℚ)) (F.fin (((c.z + 1) * BRICK_SIZE : ℤ) : ℚ))⟩

/-- Expansion of an AABB by a margin on every side. -/
def expandAABB (box : AABB) (margin : F) : AABB :=
  ⟨⟨F.sub box.min.x margin, F.sub box.min.y margin, F.sub box.min.z margin⟩,
   ⟨F.add box.max.x margin, F.add box.max.y margin, F.add box.max.z margin⟩⟩

/-- Axis-by-axis AABB overlap test. -/
def aabbOverlap (a b : AABB) : Bool :=
  F.ble a.min.x b.max.x && F.ble b.min.x a.max.x &&
  F.ble a.min.y b.max.y && F.ble b.min.y a.max.y &&
  F.ble a.min.z b.max.z && F.ble b.min.z a.max.z

/-- The brick coordinates whose bounding box overlaps the dirty AABB
expanded by the brick diagonal (spec §4.6, incremental update). -/
def dirtyBrickCoords (bm : BrickMap) (dirty_aabb : AABB) : List BrickCoord :=
  bm.allBrickCoords.filter fun c =>
    aabbOverlap (bm.brickBox c) (expandAABB dirty_aabb bm.brickDiagonal)

/-- A freshly re-sampled brick: every voxel holds the SDF at its cell
center.  `none` models an `evaluate_sdf` panic. -/
def sampledBrick (pf : ProfiledSdf) (mm : MouldManager) (bm : BrickMap)
    (c : BrickCoord) : Option Brick :=
  ((List.range (BRICK_SIZE * BRICK_SIZE * BRICK_SIZE)).mapM fun idx =>
    let lx := idx % BRICK_SIZE
    let ly := (idx / BRICK_SIZE) % BRICK_SIZE
    let lz := idx / (BRICK_SIZE * BRICK_SIZE)
    mm.evaluate_sdf pf
      (bm.voxelSamplePos (c.x.toNat * BRICK_SIZE + lx) (c.y.toNat * BRICK_SIZE + ly)
        (c.z.toNat * BRICK_SIZE + lz))).map Brick.mk

/-- The per-brick step of the incremental update (spec §4.6): re-evaluate
the brick center; if surface-adjacent (`|sdf| < surface_thickness +
diagonal`) allocate the brick if absent and re-sample all its voxels; if
clearly outside (`sdf > threshold`) drop it from the map. -/
def updateStep (pf : ProfiledSdf) (mm : MouldManager) (bm : BrickMap)
    (threshold : F) (bricks : List (BrickCoord × Brick)) (c : BrickCoord) :
    Option (List (BrickCoord × Brick)) :=
  (mm.evaluate_sdf pf (bm.brickCenter c)).bind fun s =>
    if F.blt s.abs threshold then
      (sampledBrick pf mm bm c).map fun b => insertA bricks c b
    else if F.blt threshold s then some (eraseA bricks c)
    else some bricks

/-- Modelled from the spec: `BrickMap::update_surface_bricks_in_bounds` is
called from `generate_mesh_from_state_brick_map` (`mesh_generation.rs`,
line 257) but its implementation is absent from the sources; this definition
follows the specification's words (§4.6 "Incremental update"): compute the
set of brick coordinates whose bounding box overlaps `dirty_aabb` expanded
by the brick diagonal; for each, re-evaluate the brick center; if
surface-adjacent, ensure it is allocated and re-sample all its voxels; if
clearly outside (beyond the threshold), drop it from the map. -/
def update_surface_bricks_in_bounds (pf : ProfiledSdf) (bm : BrickMap)
    (mm : MouldManager) (dirty_aabb : AABB) (surface_thickness : F) :
    Option BrickMap :=
  ((bm.dirtyBrickCoords dirty_aabb).foldlM
      (updateStep pf mm bm (F.add surface_thickness bm.brickDiagonal))
      bm.bricks).map
    fun bricks => { bm with bricks := bricks }

end BrickMap

/-! ## `mesh/dual_contouring.rs`

The extractor is generic over the grid through `(resolution, get,
get_position)` exactly as the source's `Grid` trait; the mould manager is
used only through its `evaluate_sdf` closure, passed here as a total
function `sdf : Pt3 → F` (see the pipeline definitions for why totality is
faithful there).  `dual_contouring_impl` (dense) and
`dual_contouring_generic` have identical bodies in the source and are
embedded once. -/

/-- Mesh output, `types.rs` `MeshData`. -/
structure MeshData where
  vertices : List F
  indices : List ℕ
  normals : List F
deriving DecidableEq

/-- A symmetric 3×3 accumulator matrix for the QEF solve. -/
structure Mat3 where
  m11 : F
  m12 : F
  m13 : F
  m21 : F
  m22 : F
  m23 : F
  m31 : F
  m32 : F
  m33 : F

namespace Mat3

def zero : Mat3 :=
  ⟨F.fin 0, F.fin 0, F.fin 0, F.fin 0, F.fin 0, F.fin 0, F.fin 0, F.fin 0, F.fin 0⟩

def add (a b : Mat3) : Mat3 :=
  ⟨F.add a.m11 b.m11, F.add a.m12 b.m12, F.add a.m13 b.m13,
   F.add a.m21 b.m21, F.add a.m22 b.m22, F.add a.m23 b.m23,
   F.add a.m31 b.m31, F.add a.m32 b.m32, F.add a.m33 b.m33⟩

/-- Outer product `n nᵀ`. -/
def outer (n : Vec3) : Mat3 :=
  ⟨F.mul n.x n.x, F.mul n.x n.y, F.mul n.x n.z,
   F.mul n.y n.x, F.mul n.y n.y, F.mul n.y n.z,
   F.mul n.z n.x, F.mul n.z n.y, F.mul n.z n.z⟩

def det (m : Mat3) : F :=
  F.add
    (F.sub (F.mul m.m11 (F.sub (F.mul m.m22 m.m33) (F.mul m.m23 m.m32)))
           (F.mul m.m12 (F.sub (F.mul m.m21 m.m33) (F.mul m.m23 m.m31))))
    (F.mul m.m13 (F.sub (F.mul m.m21 m.m32) (F.mul m.m22 m.m31)))

/-- Solve `m v = b` by the adjugate over the (nonzero) determinant, the
direct 3×3 inverse `nalgebra`'s `try_inverse` computes. -/
def solveAdj (m : Mat3) (d : F) (b : Vec3) : Pt3 :=
  let a11 := F.sub (F.mul m.m22 m.m33) (F.mul m.m23 m.m32)
  let a12 := F.sub (F.mul m.m13 m.m32) (F.mul m.m12 m.m33)
  let a13 := F.sub (F.mul m.m12 m.m23) (F.mul m.m13 m.m22)
  let a21 := F.sub (F.mul m.m23 m.m31) (F.mul m.m21 m.m33)
  let a22 := F.sub (F.mul m.m11 m.m33) (F.mul m.m13 m.m31)
  let a23 := F.sub (F.mul m.m13 m.m21) (F.mul m.m11 m.m23)
  let a31 := F.sub (F.mul m.m21 m.m32) (F.mul m.m22 m.m31)
  let a32 := F.sub (F.mul m.m12 m.m31) (F.mul m.m11 m.m32)
  let a33 := F.sub (F.mul m.m11 m.m22) (F.mul m.m12 m.m21)
  ⟨F.div (F.add (F.add (F.mul a11 b.x) (F.mul a12 b.y)) (F.mul a13 b.z)) d,
   F.div (F.add (F.add (F.mul a21 b.x) (F.mul a22 b.y)) (F.mul a23 b.z)) d,
   F.div (F.add (F.add (F.mul a31 b.x) (F.mul a32 b.y)) (F.mul a33 b.z)) d⟩

end Mat3

/-- View of a point as a vector (`nalgebra`'s `coords`). -/
def Pt3.toVec (p : Pt3) : Vec3 := ⟨p.x, p.y, p.z⟩

/-- Source `cell_intersects_surface`: the 8 corner values contain both
`< iso` and `>= iso`. -/
def cell_intersects_surface (get : ℕ → ℕ → ℕ → F) (iso_value : F)
    (x y z : ℕ) : Bool :=
  let corners : List F :=
    [get x y z, get (x+1) y z, get (x+1) y (z+1), get x y (z+1),
     get x (y+1) z, get (x+1) (y+1) z, get (x+1) (y+1) (z+1), get x (y+1) (z+1)]
  corners.any (fun v => F.blt v iso_value) &&
    corners.any (fun v => ! F.blt v iso_value)

/-- Source `solve_qef`: accumulate `AᵀA` and `Aᵀb` over the cell's crossing
edges (skipping gradients with squared magnitude below `1e-6`), then invert
`AᵀA`; `none` when no crossing contributed or the determinant vanishes. -/
def solve_qef (get : ℕ → ℕ → ℕ → F) (getPos : F → F → F → Pt3)
    (sdf : Pt3 → F) (iso_value : F) (x y z : ℕ) : Option Pt3 :=
  let corners : List (ℕ × ℕ × ℕ) :=
    [(x, y, z), (x+1, y, z), (x, y+1, z), (x+1, y+1, z),
     (x, y, z+1), (x+1, y, z+1), (x, y+1, z+1), (x+1, y+1, z+1)]
  let corner_values := corners.map fun c => get c.1 c.2.1 c.2.2
  let edges : List (ℕ × ℕ) :=
    [(0, 1), (2, 3), (4, 5), (6, 7),
     (0, 2), (1, 3), (4, 6), (5, 7),
     (0, 4), (1, 5), (2, 6), (3, 7)]
  let acc := edges.foldl
    (fun (st : Mat3 × Vec3 × ℕ) e =>
      let v0 := corner_values.getD e.1 (F.fin 0)
      let v1 := corner_values.getD e.2 (F.fin 0)
      if (F.blt v0 iso_value) ≠ (F.blt v1 iso_value) then
        let c0 := corners.getD e.1 (x, y, z)
        let c1 := corners.getD e.2 (x, y, z)
        let p0 := getPos (F.fin (c0.1 : ℚ)) (F.fin (c0.2.1 : ℚ)) (F.fin (c0.2.2 : ℚ))
        let p1 := getPos (F.fin (c1.1 : ℚ)) (F.fin (c1.2.1 : ℚ)) (F.fin (c1.2.2 : ℚ))
        let t := F.div (F.sub iso_value v0) (F.sub v1 v0)
        let intersection_pos := Pt3.lerp p0 p1 t
        let normal := compute_gradient intersection_pos sdf
        if F.blt (Vec3.magnitudeSquared normal) (F.fin (1/1000000)) then st
        else
          let n := Vec3.normalize normal
          (Mat3.add st.1 (Mat3.outer n),
           Vec3.add st.2.1 (Vec3.smul n (Vec3.dot n intersection_pos.toVec)),
           st.2.2 + 1)
      else st)
    (Mat3.zero, Vec3.zero, 0)
  if acc.2.2 = 0 then none
  else
    let d := Mat3.det acc.1
    if d = F.fin 0 then none
    else some (Mat3.solveAdj acc.1 d acc.2.1)

/-- Source `project_to_surface_newton`'s loop, with explicit fuel (the
source iterates `max_iterations = 8` times, breaking on `|sdf − iso| <
1e-3` or gradient length below `1e-4`; `grad_len < 1e-4` is embedded as
`‖∇‖² < 1e-8`, equivalent by monotonicity of `sqrt`). -/
def newtonLoop (sdf : Pt3 → F) (iso_value : F) : ℕ → Pt3 → Pt3
  | 0, pos => pos
  | fuel + 1, pos =>
    let dist := F.sub (sdf pos) iso_value
    if F.blt dist.abs (F.fin (1/1000)) then pos
    else
      let grad := compute_gradient pos sdf
      if F.blt (Vec3.magnitudeSquared grad) (F.fin (1/100000000)) then pos
      else
        let grad_len := Vec3.magnitude grad
        let step_size := F.div dist grad_len
        newtonLoop sdf iso_value fuel
          ⟨F.sub pos.x (F.mul grad.x step_size),
           F.sub pos.y (F.mul grad.y step_size),
           F.sub pos.z (F.mul grad.z step_size)⟩

/-- Source `project_to_surface_newton`. -/
def project_to_surface_newton (start_pos : Pt3) (sdf : Pt3 → F)
    (iso_value : F) : Pt3 :=
  newtonLoop sdf iso_value 8 start_pos

/-- Source `find_cell_vertex`: QEF solution clamped into the cell's AABB,
else the (unclamped) Newton projection from the cell center. -/
def find_cell_vertex (get : ℕ → ℕ → ℕ → F) (getPos : F → F → F → Pt3)
    (sdf : Pt3 → F) (iso_value : F) (x y z : ℕ) : Pt3 :=
  let cell_center :=
    getPos (F.fin ((x : ℚ) + 1/2)) (F.fin ((y : ℚ) + 1/2)) (F.fin ((z : ℚ) + 1/2))
  match solve_qef get getPos sdf iso_value x y z with
  | some pos =>
    let min_bound := getPos (F.fin (x : ℚ)) (F.fin (y : ℚ)) (F.fin (z : ℚ))
    let max_bound := getPos (F.fin ((x : ℚ) + 1)) (F.fin ((y : ℚ) + 1)) (F.fin ((z : ℚ) + 1))
    ⟨F.clamp pos.x min_bound.x max_bound.x,
     F.clamp pos.y min_bound.y max_bound.y,
     F.clamp pos.z min_bound.z max_bound.z⟩
  | none => project_to_surface_newton cell_center sdf iso_value

/-- Cell coordinate triples. -/
abbrev Cell : Type := ℕ × ℕ × ℕ

/-- The per-cell vertex map: cell coordinate to (position, vertex index). -/
abbrev CellVertices : Type := List (Cell × (Pt3 × ℕ))

/-- Squared distance between two points; the source compares
`distance(a, b) = (a − b).magnitude()` values, equivalent to comparing
these by monotonicity of `sqrt`. -/
def distanceSq (a b : Pt3) : F := Vec3.magnitudeSquared (Pt3.sub a b)

/-- Source `create_face_x`: the quad around the +X grid edge, over cells
`(x,y,z), (x,y,z+1), (x,y+1,z+1), (x,y+1,z)`; empty unless all four cells
own vertices; split along the shorter diagonal; winding flipped when the
face normal's X component is negative. -/
def create_face_x (cv : CellVertices) (x y z : ℕ) : List ℕ :=
  match lookupA cv (x, y, z), lookupA cv (x, y, z+1),
        lookupA cv (x, y+1, z+1), lookupA cv (x, y+1, z) with
  | some v0, some v1, some v2, some v3 =>
    let e1 := Pt3.sub v1.1 v0.1
    let e2 := Pt3.sub v3.1 v0.1
    let face_normal := Vec3.cross e1 e2
    let flip := F.blt face_normal.x (F.fin 0)
    let diag02 := distanceSq v0.1 v2.1
    let diag13 := distanceSq v1.1 v3.1
    if F.blt diag02 diag13 then
      if flip then [v0.2, v2.2, v1.2, v0.2, v3.2, v2.2]
      else [v0.2, v1.2, v2.2, v0.2, v2.2, v3.2]
    else
      if flip then [v0.2, v3.2, v1.2, v1.2, v3.2, v2.2]
      else [v0.2, v1.2, v3.2, v1.2, v2.2, v3.2]
  | _, _, _, _ => []

/-- Source `create_face_y`: quad over cells
`(x,y,z), (x+1,y,z), (x+1,y,z+1), (x,y,z+1)`; flip on the Y component. -/
def create_face_y (cv : CellVertices) (x y z : ℕ) : List ℕ :=
  match lookupA cv (x, y, z), lookupA cv (x+1, y, z),
        lookupA cv (x+1, y, z+1), lookupA cv (x, y, z+1) with
  | some v0, some v1, some v2, some v3 =>
    let e1 := Pt3.sub v1.1 v0.1
    let e2 := Pt3.sub v3.1 v0.1
    let face_normal := Vec3.cross e1 e2
    let flip := F.blt face_normal.y (F.fin 0)
    let diag02 := distanceSq v0.1 v2.1
    let diag13 := distanceSq v1.1 v3.1
    if F.blt diag02 diag13 then
      if flip then [v0.2, v2.2, v1.2, v0.2, v3.2, v2.2]
      else [v0.2, v1.2, v2.2, v0.2, v2.2, v3.2]
    else
      if flip then [v0.2, v3.2, v1.2, v1.2, v3.2, v2.2]
      else [v0.2, v1.2, v3.2, v1.2, v2.2, v3.2]
  | _, _, _, _ => []

/-- Source `create_face_z`: quad over cells
`(x,y,z), (x+1,y,z), (x+1,y+1,z), (x,y+1,z)`; flip on the Z component. -/
def create_face_z (cv : CellVertices) (x y z : ℕ) : List ℕ :=
  match lookupA cv (x, y, z), lookupA cv (x+1, y, z),
        lookupA cv (x+1, y+1, z), lookupA cv (x, y+1, z) with
  | some v0, some v1, some v2, some v3 =>
    let e1 := Pt3.sub v1.1 v0.1
    let e2 := Pt3.sub v3.1 v0.1
    let face_normal := Vec3.cross e1 e2
    let flip := F.blt face_normal.z (F.fin 0)
    let diag02 := distanceSq v0.1 v2.1
    let diag13 := distanceSq v1.1 v3.1
    if F.blt diag02 diag13 then
      if flip then [v0.2, v2.2, v1.2, v0.2, v3.2, v2.2]
      else [v0.2, v1.2, v2.2, v0.2, v2.2, v3.2]
    else
      if flip then [v0.2, v3.2, v1.2, v1.2, v3.2, v2.2]
      else [v0.2, v1.2, v3.2, v1.2, v2.2, v3.2]
  | _, _, _, _ => []

/-- Step-1 surface-cell pass: the cells (labelled by their minimum corner,
`0 ≤ x, y, z ≤ res − 2`) whose corners straddle the iso-value, each paired
with its vertex position (cell center in fast mode, QEF/Newton vertex in
quality mode).  Enumeration order is the source's `z` outer / `y` / `x`
inner; `rayon`'s ordered `collect` makes the parallel version produce the
same list. -/
def surfaceCellsStep (res : ℕ) (get : ℕ → ℕ → ℕ → F) (getPos : F → F → F → Pt3)
    (sdf : Pt3 → F) (iso_value : F) (fast_mode : Bool) : List (Cell × Pt3) :=
  (List.range (res - 1)).flatMap fun z =>
    (List.range (res - 1)).flatMap fun y =>
      (List.range (res - 1)).filterMap fun x =>
        if cell_intersects_surface get iso_value x y z then
          some ((x, y, z),
            if fast_mode then
              getPos (F.fin ((x : ℚ) + 1/2)) (F.fin ((y : ℚ) + 1/2)) (F.fin ((z : ℚ) + 1/2))
            else find_cell_vertex get getPos sdf iso_value x y z)
        else none

/-- The vertex map built from the surface cells: vertex index `i` is the
position of the cell in the list (`vertices.len() / 3` at insertion). -/
def cellVerticesOf (cells : List (Cell × Pt3)) : CellVertices :=
  cells.enum.map fun e => (e.2.1, (e.2.2, e.1))

/-- The flat vertex buffer. -/
def verticesOf (cells : List (Cell × Pt3)) : List F :=
  cells.flatMap fun e => [e.2.x, e.2.y, e.2.z]

/-- Step-2 face pass for one cell: up to three quads, one per positive axis,
guarded by the in-range checks and the sign change of the grid edge leaving
`(x, y, z)` along that axis. -/
def facesForCell (res : ℕ) (get : ℕ → ℕ → ℕ → F) (iso_value : F)
    (cv : CellVertices) (c : Cell) : List ℕ :=
  let x := c.1
  let y := c.2.1
  let z := c.2.2
  let fx :=
    if x < res - 1 && y < res - 2 && z < res - 2 then
      let s0 := F.blt (get x y z) iso_value
      let s1 := F.blt (get (x+1) y z) iso_value
      if s0 ≠ s1 then create_face_x cv x y z else []
    else []
  let fy :=
    if y < res - 1 && x < res - 2 && z < res - 2 then
      let s0 := F.blt (get x y z) iso_value
      let s1 := F.blt (get x (y+1) z) iso_value
      if s0 ≠ s1 then create_face_y cv x y z else []
    else []
  let fz :=
    if z < res - 1 && x < res - 2 && y < res - 2 then
      let s0 := F.blt (get x y z) iso_value
      let s1 := F.blt (get x y (z+1)) iso_value
      if s0 ≠ s1 then create_face_z cv x y z else []
    else []
  fx ++ fy ++ fz

/-- Decompose an index buffer into triangles (`step_by(3)`
over `i, i+1, i+2`). -/
def chunk3 : List ℕ → List (ℕ × ℕ × ℕ)
  | a :: b :: c :: rest => (a, b, c) :: chunk3 rest
  | _ => []

/-- Add a value into a flat float buffer at an index. -/
def addAt (l : List F) (idx : ℕ) (v : F) : List F :=
  l.set idx (F.add (l.getD idx (F.fin 0)) v)

/-- Source `compute_normals` (fast mode): accumulate triangle face normals
onto each vertex, then normalize every accumulated normal whose length
exceeds `0.0001` (embedded as the squared comparison; the division uses
`sqrtF`). -/
def compute_normals (vertices : List F) (indices : List ℕ) : List F :=
  let init := List.replicate vertices.length (F.fin 0)
  let acc := (chunk3 indices).foldl
    (fun ns tri =>
      let i0 := tri.1
      let i1 := tri.2.1
      let i2 := tri.2.2
      let v0 : Vec3 := ⟨vertices.getD (i0*3) (F.fin 0), vertices.getD (i0*3+1) (F.fin 0),
                        vertices.getD (i0*3+2) (F.fin 0)⟩
      let v1 : Vec3 := ⟨vertices.getD (i1*3) (F.fin 0), vertices.getD (i1*3+1) (F.fin 0),
                        vertices.getD (i1*3+2) (F.fin 0)⟩
      let v2 : Vec3 := ⟨vertices.getD (i2*3) (F.fin 0), vertices.getD (i2*3+1) (F.fin 0),
                        vertices.getD (i2*3+2) (F.fin 0)⟩
      let n := Vec3.cross (Vec3.sub v1 v0) (Vec3.sub v2 v0)
      [i0, i1, i2].foldl
        (fun ms i => addAt (addAt (addAt ms (i*3) n.x) (i*3+1) n.y) (i*3+2) n.z) ns)
    init
  (List.range (vertices.length / 3)).foldl
    (fun ns i =>
      let nx := ns.getD (i*3) (F.fin 0)
      let ny := ns.getD (i*3+1) (F.fin 0)
      let nz := ns.getD (i*3+2) (F.fin 0)
      let lenSq := F.add (F.add (F.mul nx nx) (F.mul ny ny)) (F.mul nz nz)
      if F.blt (F.fin (1/100000000)) lenSq then
        let len := F.sqrtF lenSq
        ((ns.set (i*3) (F.div nx len)).set (i*3+1) (F.div ny len)).set (i*3+2)
          (F.div nz len)
      else ns)
    acc

/-- Source `compute_normals_from_sdf` (quality mode): the normalized SDF
gradient at every vertex position. -/
def compute_normals_from_sdf (vertices : List F) (sdf : Pt3 → F) : List F :=
  (List.range (vertices.length / 3)).flatMap fun i =>
    let pos : Pt3 := ⟨vertices.getD (i*3) (F.fin 0), vertices.getD (i*3+1) (F.fin 0),
                      vertices.getD (i*3+2) (F.fin 0)⟩
    let n := Vec3.normalize (compute_gradient pos sdf)
    [n.x, n.y, n.z]

/-- Source `dual_contouring_impl` / `dual_contouring_generic`. -/
def dual_contouring_impl (res : ℕ) (get : ℕ → ℕ → ℕ → F)
    (getPos : F → F → F → Pt3) (sdf : Pt3 → F) (iso_value : F)
    (fast_mode : Bool) : MeshData :=
  let surface_cells := surfaceCellsStep res get getPos sdf iso_value fast_mode
  let vertices := verticesOf surface_cells
  let cell_vertices := cellVerticesOf surface_cells
  let indices := (surface_cells.map Prod.fst).flatMap
    (facesForCell res get iso_value cell_vertices)
  let normals :=
    if fast_mode then compute_normals vertices indices
    else compute_normals_from_sdf vertices sdf
  ⟨vertices, indices, normals⟩

/-- Observable for claim C8: the quads the face pass emits, as
`(axis, x, y, z)` with axis `0/1/2` for `+X/+Y/+Z` — a quad is emitted when
the in-range and sign-change guards hold and all four neighbouring cells
own vertices. -/
def emittedQuads (res : ℕ) (get : ℕ → ℕ → ℕ → F) (iso_value : F)
    (cv : CellVertices) (cells : List Cell) : List (ℕ × Cell) :=
  cells.flatMap fun c =>
    let x := c.1
    let y := c.2.1
    let z := c.2.2
    let qx :=
      if x < res - 1 && y < res - 2 && z < res - 2 &&
          (F.blt (get x y z) iso_value ≠ F.blt (get (x+1) y z) iso_value) &&
          (lookupA cv (x, y, z)).isSome && (lookupA cv (x, y, z+1)).isSome &&
          (lookupA cv (x, y+1, z+1)).isSome && (lookupA cv (x, y+1, z)).isSome then
        [(0, c)] else []
    let qy :=
      if y < res - 1 && x < res - 2 && z < res - 2 &&
          (F.blt (get x y z) iso_value ≠ F.blt (get x (y+1) z) iso_value) &&
          (lookupA cv (x, y, z)).isSome && (lookupA cv (x+1, y, z)).isSome &&
          (lookupA cv (x+1, y, z+1)).isSome && (lookupA cv (x, y, z+1)).isSome then
        [(1, c)] else []
    let qz :=
      if z < res - 1 && x < res - 2 && y < res - 2 &&
          (F.blt (get x y z) iso_value ≠ F.blt (get x y (z+1)) iso_value) &&
          (lookupA cv (x, y, z)).isSome && (lookupA cv (x+1, y, z)).isSome &&
          (lookupA cv (x+1, y+1, z)).isSome && (lookupA cv (x, y+1, z)).isSome then
        [(2, c)] else []
    qx ++ qy ++ qz

/-! ## `mesh_generation.rs`

The outcome of one `generate_mesh` call, distinguishing a returned
`Ok(mesh)`, a returned `Err(message)`, a panic (which in Rust unwinds
instead of returning a `Result`), and a self-deadlock.  The dense path
takes the `MESH_STATE` lock at `mesh_generation.rs:177` and its guard
lives to the end of the function; the inner block at line 207 calls
`MESH_STATE.lock()` again on the same thread while that guard is still
held.  `std::sync::Mutex` is not reentrant: per its contract the second
call never returns (it deadlocks or panics), so the dense success path
never reaches `Ok(mesh)` at line 211.  `GenResult.deadlocked` models this
non-returning outcome; it records the mesh computed before the re-lock,
which the source drops (it is never stored nor returned).  The brick-map
path locks once and writes back through the same guard, so it is
unaffected.  Other state write-backs (`last_mesh`, the cached brick map)
are not observed by any claim and are dropped.

Totality bridge for the extraction step: the extractor receives the closure
`|p| mould_manager.evaluate_sdf(p)`, whose failure does not depend on the
point (`evaluate_sdf_of_evalSafe` / `evaluate_sdf_of_not_evalSafe`).  In
the dense path, grid evaluation runs first and touches at least one point
whenever `resolution ≥ 1`, so reaching the extractor implies the manager is
`evalSafe` and the total `evaluateSdfTotal` coincides with the source
closure there; on the brick rebuild path pass 1 likewise evaluates at least
one brick center for the resolutions (`≥ 96`) that reach it.  The brick
reuse/update branches may reach the extractor without a prior evaluation;
no theorem below concerns extraction on those branches. -/

inductive GenResult where
  | ok : MeshData → GenResult
  | err : String → GenResult
  | panicked : String → GenResult
  | deadlocked : MeshData → GenResult
deriving DecidableEq

/-- Observation: did the call return `Ok`? -/
def GenResult.isOk : GenResult → Bool
  | .ok _ => true
  | _ => false

/-- Observation: did the call return `Err` (a returned error result, as
opposed to a panic)? -/
def GenResult.isErr : GenResult → Bool
  | .err _ => true
  | _ => false

/-- Source `mesh_generation.rs` `MeshGeneratorState` (fields not read by
`generate_mesh` itself are kept for shape). -/
structure MeshGeneratorState where
  skeleton : Option Skeleton
  mould_manager : Option MouldManager
  last_skeleton : Option Skeleton
  prev_skeleton : Option Skeleton
  last_moulds : List Mould
  moved_joint_ids : List String
  dirty_bounds : Option AABB
  brick_map : Option BrickMap
  brick_map_resolution : Option ℕ
  last_mesh : Option MeshData

/-- The fixed extraction bounds `(-1, -1, -1)` to `(1, 1.5, 1)`. -/
def meshBounds : AABB :=
  ⟨⟨F.fin (-1), F.fin (-1), F.fin (-1)⟩, ⟨F.fin 1, F.fin (3/2), F.fin 1⟩⟩

/-- Source `generate_mesh_from_state_dense` (resolutions below 96):
rebuild the transform cache, allocate a fresh dense grid over the fixed
bounds, evaluate it fully, and extract with iso-value `0`.  After
extraction the source re-locks `MESH_STATE` (`mesh_generation.rs:207`)
while the guard taken at line 177 is still held; that second `lock()`
never returns, so the computed mesh is never delivered — the branch ends
in `GenResult.deadlocked`, not `.ok`. -/
def generate_mesh_from_state_dense (pf : ProfiledSdf) (resolution : ℕ)
    (fast_mode : Bool) (st : MeshGeneratorState) : GenResult :=
  match st.mould_manager with
  | none => .err "No mould manager initialized"
  | some mm0 =>
    match mm0.rebuild_cache with
    | none => .panicked "Joint not found in skeleton"
    | some mm =>
      let grid := VoxelGrid.new resolution meshBounds
      match grid.evaluate pf mm with
      | none => .panicked "Cache not built"
      | some g =>
        .deadlocked (dual_contouring_impl g.resolution g.get g.get_position
          (mm.evaluateSdfTotal pf) (F.fin 0) fast_mode)

/-- Source `generate_mesh_from_state_brick_map` (resolutions at or above
96): rebuild the cache; rebuild the brick map when none is cached or the
cached resolution differs (surface thickness `0.2`), else update the dirty
region if one is pending, else reuse the map; then extract. -/
def generate_mesh_from_state_brick_map (pf : ProfiledSdf) (resolution : ℕ)
    (fast_mode : Bool) (st : MeshGeneratorState) : GenResult :=
  match st.mould_manager with
  | none => .err "No mould manager initialized"
  | some mm0 =>
    match mm0.rebuild_cache with
    | none => .panicked "Joint not found in skeleton"
    | some mm =>
      let surface_thickness := F.fin (1/5)
      let needs_rebuild :=
        (match st.brick_map_resolution with
         | some res => decide (res ≠ resolution)
         | none => true) || st.brick_map.isNone
      let extract : BrickMap → GenResult := fun bm =>
        .ok (dual_contouring_impl bm.resolution bm.get bm.get_position
          (mm.evaluateSdfTotal pf) (F.fin 0) fast_mode)
      if needs_rebuild then
        match BrickMap.new resolution meshBounds with
        | none => .panicked "Resolution must be multiple of brick size (8)"
        | some fresh =>
          match fresh.allocate_surface_bricks pf mm surface_thickness with
          | none => .panicked "Cache not built"
          | some bm => extract bm
      else
        match st.dirty_bounds with
        | some dirty =>
          match st.brick_map with
          | some bm0 =>
            match bm0.update_surface_bricks_in_bounds pf mm dirty surface_thickness with
            | none => .panicked "Cache not built"
            | some bm => extract bm
          | none => .err "Brick map unavailable"
        | none =>
          match st.brick_map with
          | some bm => extract bm
          | none => .err "Brick map unavailable"

/-- Source `generate_mesh_from_state_with_quality`: dense grid below the
`BRICK_MAP_THRESHOLD` of 96, brick map at or above it. -/
def generate_mesh_from_state_with_quality (pf : ProfiledSdf) (resolution : ℕ)
    (fast_mode : Bool) (st : MeshGeneratorState) : GenResult :=
  if resolution ≥ 96 then
    generate_mesh_from_state_brick_map pf resolution fast_mode st
  else
    generate_mesh_from_state_dense pf resolution fast_mode st

/-! ## Shared concrete fixtures -/

/-- A trivial profiled-capsule primitive instantiating the abstract
parameter in concrete examples. -/
def pfZero : ProfiledSdf := fun _ _ _ _ _ => F.fin 0

/-- The origin point. -/
def originPt : Pt3 := ⟨F.fin 0, F.fin 0, F.fin 0⟩

/-- A concrete unit sphere mould at the origin. -/
def sphereMould : Mould :=
  { id := "s", shape := .Sphere, center := originPt, radius := F.fin 1,
    blend_radius := F.fin (1/10), parent_joint_id := none, end_point := none,
    radial_profiles := none, use_splines := true }

/-- A manager holding `sphereMould` with its transform cache built. -/
def sphereMM : MouldManager :=
  { moulds := [sphereMould], skeleton := none,
    mould_cache := [("s", ⟨originPt, none⟩)], cache_valid := true }

/-! ## Helper lemmas on `smooth_min_poly` -/

/-- Folding a finite value into `+∞` with a nonzero finite blend radius is
the identity: the quadratic correction term vanishes. -/
theorem smooth_min_poly_inf_fin (d k : ℚ) (hk : k ≠ 0) :
    smooth_min_poly F.inf (F.fin d) (F.fin k) = F.fin d := by
  simp only [smooth_min_poly, F.sub, F.add, F.neg, F.abs, F.fmax, F.fmin, F.mul,
    F.div]
  norm_num [hk]

/-! ## Claim C9 -/

/-- Claim C9: the polynomial smooth-min of the source satisfies the
specification formula `smin(a, b, k) = min(a, b) − max(0, k − |a−b|)² /
(4k)` for all finite `a`, `b` and finite `k > 0`; the composed mould-set
SDF reduces over the moulds pairwise (a left fold starting at `+∞`) with
each mould's own `blend_radius` as `k`; and evaluating the SDF of an empty
mould set returns `+1`. -/
theorem c9_smooth_min_and_composition :
    (∀ a b k : ℚ, 0 < k →
      smooth_min_poly (F.fin a) (F.fin b) (F.fin k) = F.fin (smin_spec a b k))
    ∧ (∀ (pf : ProfiledSdf) (mm : MouldManager) (p : Pt3), mm.moulds = [] →
        mm.evaluate_sdf pf p = some (F.fin 1))
    ∧ (∀ (pf : ProfiledSdf) (mm : MouldManager) (p : Pt3),
        mm.evalSafe = true → mm.moulds ≠ [] →
        mm.evaluate_sdf pf p = some (mm.moulds.foldl
          (fun acc m =>
            smooth_min_poly acc (mouldSdfValue pf mm.mould_cache p m) m.blend_radius)
          F.inf)) := by
  refine ⟨?_, ?_, ?_⟩
  · intro a b k hk
    have hk0 : k ≠ 0 := ne_of_gt hk
    simp only [smooth_min_poly, F.sub, F.add, F.neg, F.abs, F.fmax, F.fmin, F.mul,
      F.div, if_neg hk0, smin_spec]
    congr 1
    rw [max_comm]
    field_simp
    simp only [sub_eq_add_neg, sq]
  · intro pf mm p hempty
    unfold MouldManager.evaluate_sdf
    rw [hempty]
    rfl
  · intro pf mm p hsafe hne
    have h := evaluate_sdf_of_evalSafe pf mm p hsafe
    rw [h]
    unfold MouldManager.evaluateSdfTotal
    rw [if_neg (by simpa [List.isEmpty_iff] using hne)]

/-- Witness for C9 at concrete inputs. -/
theorem c9_witness :
    (smooth_min_poly (F.fin 0) (F.fin 1) (F.fin 1) = F.fin (smin_spec 0 1 1))
    ∧ ((MouldManager.mk [] none [] false).evaluate_sdf pfZero originPt =
        some (F.fin 1))
    ∧ (sphereMM.evaluate_sdf pfZero originPt = some (sphereMM.moulds.foldl
        (fun acc m =>
          smooth_min_poly acc (mouldSdfValue pfZero sphereMM.mould_cache originPt m)
            m.blend_radius)
        F.inf)) :=
  ⟨c9_smooth_min_and_composition.1 0 1 1 (by norm_num),
   c9_smooth_min_and_composition.2.1 pfZero _ originPt rfl,
   c9_smooth_min_and_composition.2.2 pfZero sphereMM originPt
     (by with_unfolding_all decide) (by with_unfolding_all decide)⟩

/-! ## Claim C10 -/

/-- Claim C10: for every finite `d` and finite `k > 0`,
`smooth_min_poly(+∞, d, k) = d`; consequently, on a manager with a built
cache holding exactly one mould whose primitive SDF value is finite and
whose blend radius is a finite positive `k`, `evaluate_sdf` returns that
mould's primitive SDF value unchanged — the fold starting at `+∞`
introduces no distortion for a single mould. -/
theorem c10_single_mould_undistorted :
    (∀ d k : ℚ, 0 < k → smooth_min_poly F.inf (F.fin d) (F.fin k) = F.fin d)
    ∧ (∀ (pf : ProfiledSdf) (mm : MouldManager) (p : Pt3) (m : Mould) (kq : ℚ),
        mm.moulds = [m] → safeMould mm.mould_cache m = true →
        m.blend_radius = F.fin kq → 0 < kq →
        (mouldSdfValue pf mm.mould_cache p m).isFinite = true →
        mm.evaluate_sdf pf p = some (mouldSdfValue pf mm.mould_cache p m)) := by
  constructor
  · intro d k hk
    exact smooth_min_poly_inf_fin d k (ne_of_gt hk)
  · intro pf mm p m kq hmould hsafe hblend hk hfin
    obtain ⟨cached, hlook, hbranch⟩ := safeMould_branch pf p mm.mould_cache m hsafe
    unfold MouldManager.evaluate_sdf
    rw [hmould]
    simp only [List.isEmpty_cons, Bool.false_eq_true, if_false]
    simp only [evalLoop, hlook, hbranch]
    cases hv : mouldSdfValue pf mm.mould_cache p m with
    | fin d =>
      rw [hblend, smooth_min_poly_inf_fin d kq (ne_of_gt hk)]
    | inf => rw [hv] at hfin; simp [F.isFinite] at hfin
    | ninf => rw [hv] at hfin; simp [F.isFinite] at hfin
    | nan => rw [hv] at hfin; simp [F.isFinite] at hfin

/-- Witness for C10 at concrete inputs. -/
theorem c10_witness :
    (smooth_min_poly F.inf (F.fin 2) (F.fin 1) = F.fin 2)
    ∧ (sphereMM.evaluate_sdf pfZero originPt =
        some (mouldSdfValue pfZero sphereMM.mould_cache originPt sphereMould)) :=
  ⟨c10_single_mould_undistorted.1 2 1 (by norm_num),
   c10_single_mould_undistorted.2 pfZero sphereMM originPt sphereMould (1/10)
     rfl (by with_unfolding_all decide) rfl (by norm_num)
     (by with_unfolding_all decide)⟩

/-! ## Claim C4 -/

/-- Claim C4 as stated fails on the code: at resolution 8 over the fixed
extraction bounds, the brick map places integer grid coordinate `(1,0,0)`
at `x = −1 + 2/8 = −3/4` (voxel size `x-extent/res`) while the dense grid
places it at `x = −1 + 2.5/7 = −9/14` (cell size `max-extent/(res−1)`). -/
theorem c4_counterexample :
    (BrickMap.new 8 meshBounds).map
        (fun bm => bm.get_position (F.fin 1) (F.fin 0) (F.fin 0)) ≠
      some ((VoxelGrid.new 8 meshBounds).get_position (F.fin 1) (F.fin 0) (F.fin 0)) := by
  with_unfolding_all decide

/-- Claim C4 amended: both storages anchor integer grid coordinates at
`bounds.min` with axis-aligned scaling (so they agree at coordinate 0),
but the dense grid spaces by `max-extent/(res − 1)` while the brick map
spaces by `x-extent/res`; over the fixed extraction bounds the two
`get_position` maps therefore disagree at coordinate `(1,0,0)` for every
brick-path resolution (a multiple of 8, at least 8). -/
theorem c4_amended (res : ℕ) (h8 : 8 ≤ res) (hmod : res % 8 = 0) :
    ∃ bm, BrickMap.new res meshBounds = some bm ∧
      bm.get_position (F.fin 0) (F.fin 0) (F.fin 0) =
        (VoxelGrid.new res meshBounds).get_position (F.fin 0) (F.fin 0) (F.fin 0) ∧
      bm.get_position (F.fin 1) (F.fin 0) (F.fin 0) ≠
        (VoxelGrid.new res meshBounds).get_position (F.fin 1) (F.fin 0) (F.fin 0) := by
  have hq0 : ((res : ℚ)) ≠ 0 := by
    have : (8 : ℚ) ≤ (res : ℚ) := by exact_mod_cast h8
    linarith
  have hq1 : ((res : ℚ)) - 1 ≠ 0 := by
    have : (8 : ℚ) ≤ (res : ℚ) := by exact_mod_cast h8
    linarith
  have hnew : BrickMap.new res meshBounds = some
      { resolution := res, bounds := meshBounds, bricks := [],
        brick_count := res / BRICK_SIZE,
        voxel_size := F.div (F.sub meshBounds.max.x meshBounds.min.x)
          (F.fin (res : ℚ)) } := by
    unfold BrickMap.new BRICK_SIZE
    rw [if_pos hmod]
  refine ⟨_, hnew, ?_, ?_⟩
  · simp only [BrickMap.get_position, VoxelGrid.new, VoxelGrid.get_position,
      meshBounds, Pt3.sub, Pt3.addV]
    norm_num [F.sub, F.add, F.neg, F.mul, F.div, F.fmax, hq0, hq1]
  · simp only [BrickMap.get_position, VoxelGrid.new, VoxelGrid.get_position,
      meshBounds, Pt3.sub, Pt3.addV]
    norm_num [F.sub, F.add, F.neg, F.mul, F.div, F.fmax, hq0, hq1]
    intro h
    have h5 : (5 : ℚ) / 2 / ((res : ℚ) - 1) = 2 / (res : ℚ) := by linarith
    have hres8 : (8 : ℚ) ≤ (res : ℚ) := by exact_mod_cast h8
    rw [div_div, div_eq_div_iff (by nlinarith) hq0] at h5
    nlinarith [h5]

/-- Witness for the amended C4 at resolution 8. -/
theorem c4_witness :
    ∃ bm, BrickMap.new 8 meshBounds = some bm ∧
      bm.get_position (F.fin 0) (F.fin 0) (F.fin 0) =
        (VoxelGrid.new 8 meshBounds).get_position (F.fin 0) (F.fin 0) (F.fin 0) ∧
      bm.get_position (F.fin 1) (F.fin 0) (F.fin 0) ≠
        (VoxelGrid.new 8 meshBounds).get_position (F.fin 1) (F.fin 0) (F.fin 0) :=
  c4_amended 8 (by norm_num) (by norm_num)

/-! ## Claim C6 -/

/-- The Newton projection exactly as claim C6 words it: up to 8 iterations,
each updating `p ← p − (sdf(p) − iso) · ∇sdf(p) / ‖∇sdf(p)‖²`, stopping on
`|sdf(p) − iso| < 1e-3` or a tiny gradient.  Kept separate from
`project_to_surface_newton`, which is translated from the source, so the
two can be compared. -/
def newtonClaimLoop (sdf : Pt3 → F) (iso_value : F) : ℕ → Pt3 → Pt3
  | 0, pos => pos
  | fuel + 1, pos =>
    let dist := F.sub (sdf pos) iso_value
    if F.blt dist.abs (F.fin (1/1000)) then pos
    else
      let grad := compute_gradient pos sdf
      if F.blt (Vec3.magnitudeSquared grad) (F.fin (1/100000000)) then pos
      else
        let step := F.div dist (Vec3.magnitudeSquared grad)
        newtonClaimLoop sdf iso_value fuel
          ⟨F.sub pos.x (F.mul grad.x step),
           F.sub pos.y (F.mul grad.y step),
           F.sub pos.z (F.mul grad.z step)⟩

/-- The claim-C6 iteration run from a start point. -/
def project_newton_claim (start_pos : Pt3) (sdf : Pt3 → F) (iso_value : F) : Pt3 :=
  newtonClaimLoop sdf iso_value 8 start_pos

/-- A concrete SDF with constant gradient `(2, 0, 0)`. -/
def sdfTwice : Pt3 → F := fun p => F.mul (F.fin 2) p.x

/-- The unit-x start point for the C6 counterexample. -/
def unitXPt : Pt3 := ⟨F.fin 1, F.fin 0, F.fin 0⟩

/-- Claim C6 as stated fails on the code: the source divides the step by
`‖∇sdf(p)‖` (`step_size = dist / grad_len`), not by `‖∇sdf(p)‖²`.  On the
SDF `p ↦ 2·p.x` with iso 0 from `(1,0,0)`, the source oscillates between
`x = 1` and `x = −1` and returns `(1,0,0)` after its 8 iterations, while
the claimed iteration converges to `(0,0,0)` in one step. -/
theorem c6_counterexample :
    project_to_surface_newton unitXPt sdfTwice (F.fin 0) = unitXPt
    ∧ project_newton_claim unitXPt sdfTwice (F.fin 0) = originPt
    ∧ unitXPt ≠ originPt := by
  refine ⟨?_, ?_, by with_unfolding_all decide⟩
  · with_unfolding_all decide
  · with_unfolding_all decide

/-- One guarded Newton step as the source performs it: stop on
`|sdf − iso| < 1e-3` or `‖∇‖ < 1e-4` (embedded as `‖∇‖² < 1e-8`), else
step `p ← p − (sdf(p) − iso) · ∇sdf(p) / ‖∇sdf(p)‖` — the gradient norm
appears to the first power. -/
def newtonStepCode (sdf : Pt3 → F) (iso_value : F) (pos : Pt3) : Pt3 :=
  let dist := F.sub (sdf pos) iso_value
  if F.blt dist.abs (F.fin (1/1000)) then pos
  else
    let grad := compute_gradient pos sdf
    if F.blt (Vec3.magnitudeSquared grad) (F.fin (1/100000000)) then pos
    else
      let grad_len := Vec3.magnitude grad
      let step_size := F.div dist grad_len
      ⟨F.sub pos.x (F.mul grad.x step_size),
       F.sub pos.y (F.mul grad.y step_size),
       F.sub pos.z (F.mul grad.z step_size)⟩

/-- A stopped point is a fixed point of the guarded step. -/
theorem newtonStepCode_fixed_of_stop (sdf : Pt3 → F) (iso_value : F) (pos : Pt3)
    (h : F.blt (F.sub (sdf pos) iso_value).abs (F.fin (1/1000)) = true
      ∨ F.blt (Vec3.magnitudeSquared (compute_gradient pos sdf))
          (F.fin (1/100000000)) = true) :
    newtonStepCode sdf iso_value pos = pos := by
  unfold newtonStepCode
  rcases h with h | h
  · rw [if_pos h]
  · by_cases h1 : F.blt (F.sub (sdf pos) iso_value).abs (F.fin (1/1000)) = true
    · rw [if_pos h1]
    · rw [if_neg h1, if_pos h]

/-- Claim C6 amended: the source's Newton fallback runs the guarded step
`newtonStepCode` (dividing by `‖∇‖`, not `‖∇‖²`) at most 8 times — the
loop is exactly the 8-fold iterate of the step, whose stop conditions are
`|sdf − iso| < 1e-3` and gradient length below `1e-4` — and, whenever the
QEF solve fails, `find_cell_vertex` starts that iteration from the cell
center. -/
theorem c6_amended :
    (∀ (sdf : Pt3 → F) (iso_value : F) (start_pos : Pt3),
      project_to_surface_newton start_pos sdf iso_value =
        (newtonStepCode sdf iso_value)^[8] start_pos)
    ∧ (∀ (get : ℕ → ℕ → ℕ → F) (getPos : F → F → F → Pt3) (sdf : Pt3 → F)
        (iso_value : F) (x y z : ℕ),
        solve_qef get getPos sdf iso_value x y z = none →
        find_cell_vertex get getPos sdf iso_value x y z =
          (newtonStepCode sdf iso_value)^[8]
            (getPos (F.fin ((x : ℚ) + 1/2)) (F.fin ((y : ℚ) + 1/2))
              (F.fin ((z : ℚ) + 1/2)))) := by
  have key : ∀ (sdf : Pt3 → F) (iso_value : F) (n : ℕ) (pos : Pt3),
      newtonLoop sdf iso_value n pos = (newtonStepCode sdf iso_value)^[n] pos := by
    intro sdf iso_value n
    induction n with
    | zero => intro pos; rfl
    | succ k ih =>
      intro pos
      rw [Function.iterate_succ_apply]
      by_cases h1 : F.blt (F.sub (sdf pos) iso_value).abs (F.fin (1/1000)) = true
      · have hfix := newtonStepCode_fixed_of_stop sdf iso_value pos (Or.inl h1)
        unfold newtonLoop
        rw [if_pos h1, hfix, Function.iterate_fixed hfix k]
      · by_cases h2 : F.blt (Vec3.magnitudeSquared (compute_gradient pos sdf))
            (F.fin (1/100000000)) = true
        · have hfix := newtonStepCode_fixed_of_stop sdf iso_value pos (Or.inr h2)
          unfold newtonLoop
          rw [if_neg h1, if_pos h2, hfix, Function.iterate_fixed hfix k]
        · unfold newtonLoop
          rw [if_neg h1, if_neg h2]
          have hstep : newtonStepCode sdf iso_value pos =
              ⟨F.sub pos.x (F.mul (compute_gradient pos sdf).x
                  (F.div (F.sub (sdf pos) iso_value)
                    (Vec3.magnitude (compute_gradient pos sdf)))),
               F.sub pos.y (F.mul (compute_gradient pos sdf).y
                  (F.div (F.sub (sdf pos) iso_value)
                    (Vec3.magnitude (compute_gradient pos sdf)))),
               F.sub pos.z (F.mul (compute_gradient pos sdf).z
                  (F.div (F.sub (sdf pos) iso_value)
                    (Vec3.magnitude (compute_gradient pos sdf))))⟩ := by
            unfold newtonStepCode
            rw [if_neg h1, if_neg h2]
          rw [hstep]
          exact ih _
  constructor
  · intro sdf iso_value start_pos
    exact key sdf iso_value 8 start_pos
  · intro get getPos sdf iso_value x y z hq
    unfold find_cell_vertex
    rw [hq]
    exact key sdf iso_value 8 _

/-- Grid values straddling iso 100 along x, for the C5/C6 concrete
instances. -/
def getStep : ℕ → ℕ → ℕ → F := fun x _ _ => if x = 0 then F.fin 99 else F.fin 101

/-- The identity grid-to-world map. -/
def getPosId : F → F → F → Pt3 := fun x y z => ⟨x, y, z⟩

/-- The coordinate SDF `p ↦ p.x` (the exact SDF of a half-space). -/
def sdfX : Pt3 → F := fun p => p.x

/-- Witness for the amended C6: on the half-space instance the QEF is
singular (all crossing normals are `(1,0,0)`), and `find_cell_vertex` is
the 8-fold guarded-step iterate from the cell center. -/
theorem c6_witness :
    find_cell_vertex getStep getPosId sdfX (F.fin 100) 0 0 0 =
      (newtonStepCode sdfX (F.fin 100))^[8]
        (getPosId (F.fin ((0 : ℚ) + 1/2)) (F.fin ((0 : ℚ) + 1/2))
          (F.fin ((0 : ℚ) + 1/2))) :=
  c6_amended.2 getStep getPosId sdfX (F.fin 100) 0 0 0
    (by with_unfolding_all decide)

/-! ## Claim C5 -/

/-- Membership of a point in a componentwise box `[lo, hi]`. -/
def ptInAABB (p lo hi : Pt3) : Bool :=
  F.ble lo.x p.x && F.ble p.x hi.x &&
  F.ble lo.y p.y && F.ble p.y hi.y &&
  F.ble lo.z p.z && F.ble p.z hi.z

/-- Claim C5 as stated fails on the code: the Newton fallback is not
clamped.  On the half-space instance (`sdf p = p.x`, iso 100, grid values
99/101 across x so cell `(0,0,0)` is a surface cell), every crossing
normal is `(1,0,0)`, the QEF matrix is singular, and the Newton fallback
walks from the cell center `(1/2,1/2,1/2)` to `(100, 1/2, 1/2)` — far
outside the cell's AABB `[0,1]³`. -/
theorem c5_counterexample :
    cell_intersects_surface getStep (F.fin 100) 0 0 0 = true
    ∧ solve_qef getStep getPosId sdfX (F.fin 100) 0 0 0 = none
    ∧ find_cell_vertex getStep getPosId sdfX (F.fin 100) 0 0 0 =
        ⟨F.fin 100, F.fin (1/2), F.fin (1/2)⟩
    ∧ ptInAABB (find_cell_vertex getStep getPosId sdfX (F.fin 100) 0 0 0)
        (getPosId (F.fin 0) (F.fin 0) (F.fin 0))
        (getPosId (F.fin 1) (F.fin 1) (F.fin 1)) = false := by
  refine ⟨?_, ?_, ?_, ?_⟩ <;> with_unfolding_all decide

/-- Clamping a finite value into an ordered finite interval lands in the
interval. -/
theorem clamp_mem_of_fin (xq lq hq : ℚ) (hlh : lq ≤ hq) :
    F.ble (F.fin lq) (F.clamp (F.fin xq) (F.fin lq) (F.fin hq)) = true
    ∧ F.ble (F.clamp (F.fin xq) (F.fin lq) (F.fin hq)) (F.fin hq) = true := by
  unfold F.clamp
  by_cases h1 : F.blt (F.fin xq) (F.fin lq) = true
  · rw [if_pos h1]
    exact ⟨by simp [F.ble], by simp [F.ble, hlh]⟩
  · rw [if_neg h1]
    have hx1 : ¬ xq < lq := by simpa [F.blt] using h1
    by_cases h2 : F.blt (F.fin hq) (F.fin xq) = true
    · rw [if_pos h2]
      exact ⟨by simp [F.ble, hlh], by simp [F.ble]⟩
    · rw [if_neg h2]
      have hx2 : ¬ hq < xq := by simpa [F.blt] using h2
      exact ⟨by simp [F.ble]; linarith, by simp [F.ble]; linarith⟩

/-- Claim C5 amended: in quality mode the vertex of a surface cell lies in
the cell's AABB whenever the QEF solve succeeds with a finite solution over
finite ordered cell bounds (the QEF result is clamped); the Newton
fallback, used when the QEF fails, starts from the cell center but is not
clamped and can leave the cell (see the counterexample). -/
theorem c5_amended (get : ℕ → ℕ → ℕ → F) (getPos : F → F → F → Pt3)
    (sdf : Pt3 → F) (iso_value : F) (x y z : ℕ)
    (px py pz lx ly lz hx hy hz : ℚ)
    (hq : solve_qef get getPos sdf iso_value x y z =
      some ⟨F.fin px, F.fin py, F.fin pz⟩)
    (hlo : getPos (F.fin (x : ℚ)) (F.fin (y : ℚ)) (F.fin (z : ℚ)) =
      ⟨F.fin lx, F.fin ly, F.fin lz⟩)
    (hhi : getPos (F.fin ((x : ℚ) + 1)) (F.fin ((y : ℚ) + 1)) (F.fin ((z : ℚ) + 1)) =
      ⟨F.fin hx, F.fin hy, F.fin hz⟩)
    (hx1 : lx ≤ hx) (hy1 : ly ≤ hy) (hz1 : lz ≤ hz) :
    ptInAABB (find_cell_vertex get getPos sdf iso_value x y z)
      ⟨F.fin lx, F.fin ly, F.fin lz⟩ ⟨F.fin hx, F.fin hy, F.fin hz⟩ = true := by
  unfold find_cell_vertex
  rw [hq, hlo, hhi]
  have cx := clamp_mem_of_fin px lx hx hx1
  have cy := clamp_mem_of_fin py ly hy hy1
  have cz := clamp_mem_of_fin pz lz hz hz1
  simp only [ptInAABB, Bool.and_eq_true]
  exact ⟨⟨⟨⟨⟨cx.1, cx.2⟩, cy.1⟩, cy.2⟩, cz.1⟩, cz.2⟩

/-- A lookup-table SDF whose central-difference gradients at the three
crossing points `(1/2,0,0)`, `(0,1/2,0)`, `(0,0,1/2)` are the three unit
axes, making the QEF matrix the identity. -/
def sdfC5 : Pt3 → F := fun p =>
  if p = ⟨F.fin (501/1000), F.fin 0, F.fin 0⟩ then F.fin (1/1000)
  else if p = ⟨F.fin (499/1000), F.fin 0, F.fin 0⟩ then F.fin (-1/1000)
  else if p = ⟨F.fin 0, F.fin (501/1000), F.fin 0⟩ then F.fin (1/1000)
  else if p = ⟨F.fin 0, F.fin (499/1000), F.fin 0⟩ then F.fin (-1/1000)
  else if p = ⟨F.fin 0, F.fin 0, F.fin (501/1000)⟩ then F.fin (1/1000)
  else if p = ⟨F.fin 0, F.fin 0, F.fin (499/1000)⟩ then F.fin (-1/1000)
  else F.fin 0

/-- Grid values for the C5 witness: corner `(0,0,0)` is 0, the others 1,
with iso `1/2` — exactly the three edges leaving the origin cross. -/
def getCorner : ℕ → ℕ → ℕ → F := fun x y z =>
  if x = 0 && y = 0 && z = 0 then F.fin 0 else F.fin 1

set_option maxRecDepth 40000 in
/-- Witness for the amended C5: on the identity-QEF instance the solve
succeeds at `(1/2, 1/2, 1/2)` and the resulting vertex lies in the cell's
box `[0,1]³`. -/
theorem c5_witness :
    ptInAABB (find_cell_vertex getCorner getPosId sdfC5 (F.fin (1/2)) 0 0 0)
      ⟨F.fin 0, F.fin 0, F.fin 0⟩ ⟨F.fin 1, F.fin 1, F.fin 1⟩ = true :=
  c5_amended getCorner getPosId sdfC5 (F.fin (1/2)) 0 0 0
    (1/2) (1/2) (1/2) 0 0 0 1 1 1
    (by with_unfolding_all decide)
    (by with_unfolding_all decide)
    (by with_unfolding_all decide)
    (by norm_num) (by norm_num) (by norm_num)

/-! ## Claim C3 -/

/-- An entry found by lookup is an entry of the list. -/
theorem lookupA_mem {α β : Type} [DecidableEq α] :
    ∀ (l : List (α × β)) (k : α) (v : β), lookupA l k = some v → (k, v) ∈ l
  | [], _, _, h => by simp [lookupA] at h
  | (k', v') :: rest, k, v, h => by
    by_cases hk : k' = k
    · subst hk
      rw [lookupA_cons_self] at h
      cases h
      exact List.mem_cons_self _ _
    · rw [lookupA_cons_ne _ _ hk] at h
      exact List.mem_cons_of_mem _ (lookupA_mem rest k v h)

/-- A sphere mould with blend radius 0: folding its (finite) primitive
value into `+∞` divides `0/0` in the smooth-min correction term, so the
composed SDF is `NaN` at every point. -/
def nanMould : Mould := { sphereMould with id := "n", blend_radius := F.fin 0 }

/-- The manager holding `nanMould` with its cache built. -/
def nanMM : MouldManager :=
  { moulds := [nanMould], skeleton := none,
    mould_cache := [("n", ⟨originPt, none⟩)], cache_valid := true }

/-- A brick map (resolution 8 over `[0,8]³`, voxel size 1) with one
allocated brick at the origin. -/
def bmOneBrick : BrickMap :=
  { resolution := 8,
    bounds := ⟨originPt, ⟨F.fin 8, F.fin 8, F.fin 8⟩⟩,
    bricks := [(⟨0, 0, 0⟩, Brick.new)],
    brick_count := 1,
    voxel_size := F.fin 1 }

/-- The empty brick map over the same bounds. -/
def bmEmpty : BrickMap :=
  { resolution := 8,
    bounds := ⟨originPt, ⟨F.fin 8, F.fin 8, F.fin 8⟩⟩,
    bricks := [],
    brick_count := 1,
    voxel_size := F.fin 1 }

set_option maxRecDepth 100000 in
/-- Claim C3 as stated fails on the code: when the composed SDF yields
`NaN` (here: a mould with `blend_radius = 0`), the voxel storage layer
stores the sample as `NaN`, not `+∞` — `evaluate_allocated_bricks` writes
the SDF value through unchanged and no NaN check exists anywhere in the
storage layer. -/
theorem c3_counterexample :
    (BrickMap.evaluate_allocated_bricks pfZero nanMM bmOneBrick).map
        (fun bm => bm.get 0 0 0) = some F.nan
    ∧ F.nan ≠ F.inf := by
  constructor
  · with_unfolding_all decide
  · with_unfolding_all decide

/-- Claim C3 amended: `evaluate_sdf` returns a value at every point
provided the transform cache covers every mould and profiled capsules
carry their radial profiles (without that it panics — see C2); the voxel
storage stores every sample unchanged, `NaN` included (no `NaN → +∞`
mapping exists); only reads of unallocated bricks yield `+∞`. -/
theorem c3_amended :
    (∀ (pf : ProfiledSdf) (mm : MouldManager) (p : Pt3), mm.evalSafe = true →
      ∃ v, mm.evaluate_sdf pf p = some v)
    ∧ (∀ (bm : BrickMap) (x y z : ℕ) (v : F),
        (∀ e ∈ bm.bricks, e.2.values.length = BRICK_SIZE * BRICK_SIZE * BRICK_SIZE) →
        (bm.set x y z v).get x y z = v)
    ∧ (∀ (bm : BrickMap) (x y z : ℕ),
        lookupA bm.bricks (BrickMap.voxel_to_brick_coord x y z) = none →
        bm.get x y z = F.inf) := by
  refine ⟨?_, ?_, ?_⟩
  · intro pf mm p h
    exact ⟨_, evaluate_sdf_of_evalSafe pf mm p h⟩
  · intro bm x y z v hwf
    have hidx : (z % BRICK_SIZE) * BRICK_SIZE * BRICK_SIZE +
        (y % BRICK_SIZE) * BRICK_SIZE + (x % BRICK_SIZE) <
        BRICK_SIZE * BRICK_SIZE * BRICK_SIZE := by
      have hx := Nat.mod_lt x (show 0 < BRICK_SIZE by decide)
      have hy := Nat.mod_lt y (show 0 < BRICK_SIZE by decide)
      have hz := Nat.mod_lt z (show 0 < BRICK_SIZE by decide)
      unfold BRICK_SIZE at *
      omega
    have hlen : ((lookupA bm.bricks
        (BrickMap.voxel_to_brick_coord x y z)).getD Brick.new).values.length =
        BRICK_SIZE * BRICK_SIZE * BRICK_SIZE := by
      cases hl : lookupA bm.bricks (BrickMap.voxel_to_brick_coord x y z) with
      | none => simp only [Option.getD_none, Brick.new, List.length_replicate]
      | some b =>
        simp only [Option.getD_some]
        exact hwf _ (lookupA_mem _ _ _ hl)
    unfold BrickMap.set BrickMap.get Brick.set Brick.get
    simp only [lookupA_insertA_self]
    rw [List.getD_eq_getElem?_getD,
      List.getElem?_set_eq_of_lt _ (by rw [hlen]; exact hidx), Option.getD_some]
  · intro bm x y z h
    unfold BrickMap.get
    rw [h]

set_option maxRecDepth 40000 in
/-- Witness for the amended C3: the safe sphere manager evaluates; a `NaN`
written into a brick reads back as `NaN` (stored unchanged); a read from
the empty brick map yields `+∞`. -/
theorem c3_witness :
    (∃ v, sphereMM.evaluate_sdf pfZero originPt = some v)
    ∧ ((bmOneBrick.set 1 2 3 F.nan).get 1 2 3 = F.nan)
    ∧ (bmEmpty.get 0 0 0 = F.inf) :=
  ⟨c3_amended.1 pfZero sphereMM originPt (by with_unfolding_all decide),
   c3_amended.2.1 bmOneBrick 1 2 3 F.nan
     (by intro e he; fin_cases he; with_unfolding_all decide),
   c3_amended.2.2 bmEmpty 0 0 0 (by with_unfolding_all decide)⟩

/-! ## Claim C7 -/

/-- A manager with no moulds and no skeleton (cache rebuild trivially
succeeds). -/
def emptyMM : MouldManager :=
  { moulds := [], skeleton := none, mould_cache := [], cache_valid := false }

/-- A pipeline state with an initialized manager and no cached brick map. -/
def stNoBrick : MeshGeneratorState :=
  { skeleton := none, mould_manager := some emptyMM, last_skeleton := none,
    prev_skeleton := none, last_moulds := [], moved_joint_ids := [],
    dirty_bounds := none, brick_map := none, brick_map_resolution := none,
    last_mesh := none }

/-- Claim C7 as stated fails on the code: at resolution 100 (brick path,
not divisible by 8) the failure is the `assert!` panic inside
`BrickMap::new`, not an error result returned to the caller. -/
theorem c7_counterexample :
    generate_mesh_from_state_with_quality pfZero 100 false stNoBrick =
      .panicked "Resolution must be multiple of brick size (8)"
    ∧ (generate_mesh_from_state_with_quality pfZero 100 false stNoBrick).isErr =
        false := by
  constructor
  · with_unfolding_all decide
  · with_unfolding_all decide

/-- Claim C7 amended: when the brick path is chosen (resolution at or
above 96), the resolution is not divisible by 8, and a brick map (re)build
is needed (no cached map), mesh generation fails with the
`assert!`-message panic from `BrickMap::new` rather than returning an
error result; the core does not repair the input. -/
theorem c7_amended (pf : ProfiledSdf) (res : ℕ) (fast_mode : Bool)
    (st : MeshGeneratorState) (mm mm' : MouldManager)
    (h96 : 96 ≤ res) (hmod : ¬ res % 8 = 0)
    (hmm : st.mould_manager = some mm) (hrb : mm.rebuild_cache = some mm')
    (hmap : st.brick_map = none) :
    generate_mesh_from_state_with_quality pf res fast_mode st =
      .panicked "Resolution must be multiple of brick size (8)" := by
  unfold generate_mesh_from_state_with_quality
  rw [if_pos h96]
  unfold generate_mesh_from_state_brick_map
  rw [hmm]
  simp only [hrb]
  have hrebuild : ((match st.brick_map_resolution with
      | some r => decide (r ≠ res)
      | none => true) || st.brick_map.isNone) = true := by
    rw [hmap]
    simp [Option.isNone]
  rw [hrebuild]
  simp only [if_true]
  have hnew : BrickMap.new res meshBounds = none := by
    unfold BrickMap.new BRICK_SIZE
    rw [if_neg hmod]
  rw [hnew]

/-- Witness for the amended C7 at resolution 100 on a concrete state. -/
theorem c7_witness :
    generate_mesh_from_state_with_quality pfZero 100 true stNoBrick =
      .panicked "Resolution must be multiple of brick size (8)" :=
  c7_amended pfZero 100 true stNoBrick emptyMM emptyMM
    (by norm_num) (by norm_num) rfl (by with_unfolding_all rfl) rfl

/-! ## Claim C2 -/

/-- Mapping a failure-free function over a list succeeds. -/
theorem mapM_isSome {α β : Type} (f : α → Option β) :
    ∀ l : List α, (∀ a ∈ l, (f a).isSome = true) → ∃ l', l.mapM f = some l'
  | [], _ => ⟨[], rfl⟩
  | a :: l, h => by
    have ha := h a (List.mem_cons_self a l)
    obtain ⟨b, hb⟩ := Option.isSome_iff_exists.mp ha
    obtain ⟨l', hl'⟩ := mapM_isSome f l (fun x hx => h x (List.mem_cons_of_mem a hx))
    exact ⟨b :: l', by rw [List.mapM_cons, hb, hl']; rfl⟩

/-- A manager with a mould but no skeleton and no built cache: the
rebuild returns early with an empty cache, and every SDF evaluation then
panics at `expect("Cache not built")`. -/
def badMM : MouldManager :=
  { moulds := [sphereMould], skeleton := none, mould_cache := [],
    cache_valid := false }

/-- A pipeline state holding `badMM`. -/
def stBad : MeshGeneratorState :=
  { skeleton := none, mould_manager := some badMM, last_skeleton := none,
    prev_skeleton := none, last_moulds := [], moved_joint_ids := [],
    dirty_bounds := none, brick_map := none, brick_map_resolution := none,
    last_mesh := none }

/-- A pipeline state holding the cache-built sphere manager. -/
def stGood : MeshGeneratorState :=
  { skeleton := none, mould_manager := some sphereMM, last_skeleton := none,
    prev_skeleton := none, last_moulds := [], moved_joint_ids := [],
    dirty_bounds := none, brick_map := none, brick_map_resolution := none,
    last_mesh := none }

/-- On a manager that is not `evalSafe`, full dense-grid evaluation panics
as soon as the grid has at least one voxel: the very first sample already
fails. -/
theorem evaluate_none_of_not_evalSafe (pf : ProfiledSdf) (res : ℕ)
    (bounds : AABB) (mm : MouldManager) (hres : 1 ≤ res)
    (h : mm.evalSafe = false) :
    (VoxelGrid.new res bounds).evaluate pf mm = none := by
  have h0 : ∀ p : Pt3, mm.evaluate_sdf pf p = none := fun p =>
    evaluate_sdf_of_not_evalSafe pf mm p h
  have hlen : (VoxelGrid.new res bounds).data.length = res * res * res := by
    simp [VoxelGrid.new]
  have hne : (VoxelGrid.new res bounds).data.length ≠ 0 := by
    rw [hlen]
    have := Nat.mul_pos (Nat.mul_pos hres hres) hres
    omega
  obtain ⟨k, hk⟩ := Nat.exists_eq_succ_of_ne_zero hne
  unfold VoxelGrid.evaluate
  rw [hk, List.range_succ_eq_map, List.mapM_cons]
  simp only [h0]
  rfl

set_option maxRecDepth 40000 in
/-- Claim C2 as stated fails on the code in two independent ways.  First,
a pipeline state can hold an initialized mould manager whose moulds are
non-empty while no skeleton was ever supplied; `rebuild_cache` then
returns early with an empty cache (`mould.rs:90-93`) and the dense path
panics at `expect("Cache not built")` during grid evaluation instead of
returning the mesh.  Second, even on a fully initialized, cache-built
state the dense path never returns `Ok`: the source still holds the
`MESH_STATE` guard taken at `mesh_generation.rs:177` when it calls
`MESH_STATE.lock()` again at line 207, and `std::sync::Mutex` is not
reentrant, so the second call never returns and `Ok(mesh)` at line 211 is
unreachable. -/
theorem c2_counterexample :
    generate_mesh_from_state_with_quality pfZero 2 false stBad =
      .panicked "Cache not built"
    ∧ (generate_mesh_from_state_with_quality pfZero 2 false stGood).isOk =
        false := by
  constructor
  · with_unfolding_all decide
  · with_unfolding_all decide

/-- Claim C2 amended: for every resolution from 1 to 95, a `generate_mesh`
call never returns `Ok` — the dense path's `Ok(mesh)` is unreachable
because the source re-locks the already-held `MESH_STATE` mutex first
(`mesh_generation.rs:207`).  Precisely: with no mould manager the call
returns the uninitialized-error result; with a manager whose rebuilt
transform cache covers every mould (`evalSafe`) the dense path completes
the work the claim describes — fresh dense grid over the fixed bounds,
full evaluate, dual-contouring extraction at iso 0 — and then hangs at
the re-lock with that mesh computed but never delivered; with a manager
whose rebuilt cache leaves some mould uncovered, grid evaluation panics
at `expect("Cache not built")`.  (`1 ≤ res` excludes resolution 0, whose
`0..res-1` loops underflow in the source.) -/
theorem c2_amended (pf : ProfiledSdf) (res : ℕ) (fast_mode : Bool)
    (st : MeshGeneratorState) (hres1 : 1 ≤ res) (hres96 : res < 96) :
    (generate_mesh_from_state_with_quality pf res fast_mode st).isOk = false
    ∧ (st.mould_manager = none →
        generate_mesh_from_state_with_quality pf res fast_mode st =
          .err "No mould manager initialized")
    ∧ ∀ mm mm', st.mould_manager = some mm → mm.rebuild_cache = some mm' →
        (mm'.evalSafe = true →
          ∃ g, (VoxelGrid.new res meshBounds).evaluate pf mm' = some g ∧
            generate_mesh_from_state_with_quality pf res fast_mode st =
              .deadlocked (dual_contouring_impl g.resolution g.get
                g.get_position (mm'.evaluateSdfTotal pf) (F.fin 0) fast_mode))
        ∧ (mm'.evalSafe = false →
            generate_mesh_from_state_with_quality pf res fast_mode st =
              .panicked "Cache not built") := by
  have hdisp : generate_mesh_from_state_with_quality pf res fast_mode st =
      generate_mesh_from_state_dense pf res fast_mode st := by
    unfold generate_mesh_from_state_with_quality
    rw [if_neg (by omega)]
  refine ⟨?_, ?_, ?_⟩
  · rw [hdisp]
    cases hmm0 : st.mould_manager with
    | none =>
      unfold generate_mesh_from_state_dense
      rw [hmm0]
      rfl
    | some mm0 =>
      cases hrb : mm0.rebuild_cache with
      | none =>
        unfold generate_mesh_from_state_dense
        simp only [hmm0, hrb]
        rfl
      | some mm =>
        cases hev : (VoxelGrid.new res meshBounds).evaluate pf mm with
        | none =>
          unfold generate_mesh_from_state_dense
          simp only [hmm0, hrb, hev]
          rfl
        | some g =>
          unfold generate_mesh_from_state_dense
          simp only [hmm0, hrb, hev]
          rfl
  · intro hnone
    rw [hdisp]
    unfold generate_mesh_from_state_dense
    rw [hnone]
  · intro mm mm' hmm hrb
    constructor
    · intro hsafe
      have htotal : ∀ p : Pt3, (mm'.evaluate_sdf pf p).isSome = true := fun p => by
        rw [evaluate_sdf_of_evalSafe pf mm' p hsafe]
        rfl
      have heval : ∃ g, (VoxelGrid.new res meshBounds).evaluate pf mm' = some g := by
        unfold VoxelGrid.evaluate
        obtain ⟨l', hl'⟩ := mapM_isSome _ (List.range (VoxelGrid.new res meshBounds).data.length)
          (fun a _ => htotal _)
        exact ⟨_, by rw [hl']; rfl⟩
      obtain ⟨g, hg⟩ := heval
      refine ⟨g, hg, ?_⟩
      rw [hdisp]
      unfold generate_mesh_from_state_dense
      rw [hmm]
      simp only [hrb, hg]
    · intro hunsafe
      rw [hdisp]
      unfold generate_mesh_from_state_dense
      rw [hmm]
      simp only [hrb,
        evaluate_none_of_not_evalSafe pf res meshBounds mm' hres1 hunsafe]

set_option maxRecDepth 40000 in
/-- Witness for the amended C2 at resolution 2 on the cache-built sphere
state: the call does not return `Ok`; it reaches the re-lock with the
dual-contoured mesh computed. -/
theorem c2_witness :
    (generate_mesh_from_state_with_quality pfZero 2 true stGood).isOk = false
    ∧ ∃ g, (VoxelGrid.new 2 meshBounds).evaluate pfZero sphereMM = some g ∧
        generate_mesh_from_state_with_quality pfZero 2 true stGood =
          .deadlocked (dual_contouring_impl g.resolution g.get g.get_position
            (sphereMM.evaluateSdfTotal pfZero) (F.fin 0) true) := by
  refine ⟨(c2_amended pfZero 2 true stGood (by norm_num) (by norm_num)).1, ?_⟩
  exact ((c2_amended pfZero 2 true stGood (by norm_num) (by norm_num)).2.2
    sphereMM sphereMM rfl (by with_unfolding_all rfl)).1
    (by with_unfolding_all decide)

/-! ## Claim C8 -/

/-- The surface-cell coordinates do not depend on the mode: the filter is
the same, only the paired vertex position differs. -/
theorem surfaceCells_fst_mode_indep (res : ℕ) (get : ℕ → ℕ → ℕ → F)
    (getPos : F → F → F → Pt3) (sdf : Pt3 → F) (iso_value : F)
    (m₁ m₂ : Bool) :
    (surfaceCellsStep res get getPos sdf iso_value m₁).map Prod.fst =
    (surfaceCellsStep res get getPos sdf iso_value m₂).map Prod.fst := by
  unfold surfaceCellsStep
  simp only [List.map_flatMap, List.map_filterMap,
    apply_ite (Option.map (Prod.fst (β := Pt3))), Option.map_some', Option.map_none']

/-- Lists of pairs with equal first components have componentwise related
`enumFrom` key views. -/
theorem enumFrom_key_view : ∀ (n : ℕ) (l₁ l₂ : List (Cell × Pt3)),
    l₁.map Prod.fst = l₂.map Prod.fst →
    (l₁.enumFrom n).map (fun e => (e.2.1, e.1)) =
    (l₂.enumFrom n).map (fun e => (e.2.1, e.1))
  | _, [], l₂, h => by
    have h2 : l₂ = [] := by simpa using h.symm
    subst h2
    rfl
  | n, a :: t₁, l₂, h => by
    cases l₂ with
    | nil => simp at h
    | cons b t₂ =>
      simp only [List.map_cons, List.cons.injEq] at h
      simp only [List.enumFrom, List.map_cons, List.cons.injEq]
      exact ⟨by rw [h.1], enumFrom_key_view (n + 1) t₁ t₂ h.2⟩

/-- The (cell, index) view of the vertex map depends only on the cell
list, not on the vertex positions. -/
theorem cellVertices_key_view {l₁ l₂ : List (Cell × Pt3)}
    (h : l₁.map Prod.fst = l₂.map Prod.fst) :
    (cellVerticesOf l₁).map (fun e => (e.1, e.2.2)) =
    (cellVerticesOf l₂).map (fun e => (e.1, e.2.2)) := by
  unfold cellVerticesOf
  rw [List.map_map, List.map_map]
  exact enumFrom_key_view 0 l₁ l₂ h

/-- Lookups in two vertex maps with the same (cell, index) view agree up
to the position component. -/
theorem lookupA_key_view {l₁ l₂ : CellVertices} (k : Cell)
    (h : l₁.map (fun e => (e.1, e.2.2)) = l₂.map (fun e => (e.1, e.2.2))) :
    (lookupA l₁ k).map Prod.snd = (lookupA l₂ k).map Prod.snd := by
  induction l₁ generalizing l₂ with
  | nil =>
    have h2 : l₂ = [] := by simpa using h.symm
    subst h2
    rfl
  | cons e t ih =>
    cases l₂ with
    | nil => simp at h
    | cons e₂ t₂ =>
      simp only [List.map_cons, List.cons.injEq, Prod.mk.injEq] at h
      obtain ⟨⟨hk, hi⟩, ht⟩ := h
      cases e with
      | mk c v =>
        cases e₂ with
        | mk c₂ v₂ =>
          simp only at hk hi
          subst hk
          by_cases hck : c = k
          · subst hck
            rw [lookupA_cons_self, lookupA_cons_self]
            simp only [Option.map_some']
            rw [hi]
          · rw [lookupA_cons_ne _ _ hck, lookupA_cons_ne _ _ hck]
            exact ih ht

/-- Presence in two vertex maps with the same (cell, index) view agrees. -/
theorem lookupA_isSome_key_view {l₁ l₂ : CellVertices}
    (h : l₁.map (fun e => (e.1, e.2.2)) = l₂.map (fun e => (e.1, e.2.2)))
    (k : Cell) : (lookupA l₁ k).isSome = (lookupA l₂ k).isSome := by
  have := lookupA_key_view k h
  cases h₁ : lookupA l₁ k <;> cases h₂ : lookupA l₂ k <;>
    rw [h₁, h₂] at this <;> simp_all

/-- The length of an X-face contribution: 6 when all four cells own
vertices, 0 otherwise. -/
theorem create_face_x_length_eq (cv : CellVertices) (x y z : ℕ) :
    (create_face_x cv x y z).length =
      if (lookupA cv (x, y, z)).isSome && (lookupA cv (x, y, z+1)).isSome &&
         (lookupA cv (x, y+1, z+1)).isSome && (lookupA cv (x, y+1, z)).isSome
      then 6 else 0 := by
  unfold create_face_x
  cases lookupA cv (x, y, z) <;> cases lookupA cv (x, y, z+1) <;>
    cases lookupA cv (x, y+1, z+1) <;> cases lookupA cv (x, y+1, z) <;>
    simp only [Option.isSome_some, Option.isSome_none, Bool.and_true,
      Bool.and_false, Bool.false_and, Bool.true_and, Bool.false_eq_true,
      if_false, List.length_nil, if_true] <;>
    first
      | rfl
      | (split_ifs <;> rfl)

/-- The length of a Y-face contribution. -/
theorem create_face_y_length_eq (cv : CellVertices) (x y z : ℕ) :
    (create_face_y cv x y z).length =
      if (lookupA cv (x, y, z)).isSome && (lookupA cv (x+1, y, z)).isSome &&
         (lookupA cv (x+1, y, z+1)).isSome && (lookupA cv (x, y, z+1)).isSome
      then 6 else 0 := by
  unfold create_face_y
  cases lookupA cv (x, y, z) <;> cases lookupA cv (x+1, y, z) <;>
    cases lookupA cv (x+1, y, z+1) <;> cases lookupA cv (x, y, z+1) <;>
    simp only [Option.isSome_some, Option.isSome_none, Bool.and_true,
      Bool.and_false, Bool.false_and, Bool.true_and, Bool.false_eq_true,
      if_false, List.length_nil, if_true] <;>
    first
      | rfl
      | (split_ifs <;> rfl)

/-- The length of a Z-face contribution. -/
theorem create_face_z_length_eq (cv : CellVertices) (x y z : ℕ) :
    (create_face_z cv x y z).length =
      if (lookupA cv (x, y, z)).isSome && (lookupA cv (x+1, y, z)).isSome &&
         (lookupA cv (x+1, y+1, z)).isSome && (lookupA cv (x, y+1, z)).isSome
      then 6 else 0 := by
  unfold create_face_z
  cases lookupA cv (x, y, z) <;> cases lookupA cv (x+1, y, z) <;>
    cases lookupA cv (x+1, y+1, z) <;> cases lookupA cv (x, y+1, z) <;>
    simp only [Option.isSome_some, Option.isSome_none, Bool.and_true,
      Bool.and_false, Bool.false_and, Bool.true_and, Bool.false_eq_true,
      if_false, List.length_nil, if_true] <;>
    first
      | rfl
      | (split_ifs <;> rfl)

/-- Per-cell face output lengths agree between vertex maps with equal
presence. -/
theorem facesForCell_length_eq (res : ℕ) (get : ℕ → ℕ → ℕ → F) (iso_value : F)
    {cv₁ cv₂ : CellVertices}
    (hs : ∀ k, (lookupA cv₁ k).isSome = (lookupA cv₂ k).isSome) (c : Cell) :
    (facesForCell res get iso_value cv₁ c).length =
    (facesForCell res get iso_value cv₂ c).length := by
  unfold facesForCell
  simp only [List.length_append]
  have hx : ∀ x y z : ℕ, (create_face_x cv₁ x y z).length =
      (create_face_x cv₂ x y z).length := fun x y z => by
    rw [create_face_x_length_eq, create_face_x_length_eq, hs, hs, hs, hs]
  have hy : ∀ x y z : ℕ, (create_face_y cv₁ x y z).length =
      (create_face_y cv₂ x y z).length := fun x y z => by
    rw [create_face_y_length_eq, create_face_y_length_eq, hs, hs, hs, hs]
  have hz : ∀ x y z : ℕ, (create_face_z cv₁ x y z).length =
      (create_face_z cv₂ x y z).length := fun x y z => by
    rw [create_face_z_length_eq, create_face_z_length_eq, hs, hs, hs, hs]
  split_ifs <;> simp only [List.length_nil, hx, hy, hz]

/-- Claim C8: for every grid and iso-value, fast mode and quality mode
classify the identical list of surface cells; the face pass emits the
identical quads (same axes, same cells, after identical presence checks);
and the emitted index buffers have equal length (hence equal face count).
The two modes differ only in the vertex positions (and the normals). -/
theorem c8_fast_quality_topology (res : ℕ) (get : ℕ → ℕ → ℕ → F)
    (getPos : F → F → F → Pt3) (sdf : Pt3 → F) (iso_value : F) :
    ((surfaceCellsStep res get getPos sdf iso_value true).map Prod.fst =
      (surfaceCellsStep res get getPos sdf iso_value false).map Prod.fst)
    ∧ (emittedQuads res get iso_value
        (cellVerticesOf (surfaceCellsStep res get getPos sdf iso_value true))
        ((surfaceCellsStep res get getPos sdf iso_value true).map Prod.fst) =
       emittedQuads res get iso_value
        (cellVerticesOf (surfaceCellsStep res get getPos sdf iso_value false))
        ((surfaceCellsStep res get getPos sdf iso_value false).map Prod.fst))
    ∧ (dual_contouring_impl res get getPos sdf iso_value true).indices.length =
      (dual_contouring_impl res get getPos sdf iso_value false).indices.length := by
  have hcells := surfaceCells_fst_mode_indep res get getPos sdf iso_value true false
  have hview := cellVertices_key_view hcells
  have hsome := lookupA_isSome_key_view hview
  refine ⟨hcells, ?_, ?_⟩
  · rw [hcells]
    unfold emittedQuads
    apply List.flatMap_congr
    intro c _
    simp only [hsome]
  · unfold dual_contouring_impl
    simp only
    rw [hcells, List.length_flatMap, List.length_flatMap]
    congr 1
    apply List.map_congr_left
    intro c _
    simp only [Function.comp_apply]
    exact facesForCell_length_eq res get iso_value hsome c

/-! ## Claim C1 -/

/-- The brick-coordinate enumeration of the grid has no duplicates. -/
theorem allBrickCoords_nodup (bm : BrickMap) : bm.allBrickCoords.Nodup := by
  unfold BrickMap.allBrickCoords
  rw [List.nodup_flatMap]
  refine ⟨fun bz _ => ?_, ?_⟩
  · rw [List.nodup_flatMap]
    refine ⟨fun b_y _ => ?_, ?_⟩
    · refine (List.nodup_range _).map ?_
      intro a b hab
      have := congrArg BrickCoord.x hab
      simpa using this
    · refine (List.pairwise_lt_range _).imp ?_
      intro a b hab c hc1 hc2
      obtain ⟨bx1, _, rfl⟩ := List.mem_map.mp hc1
      obtain ⟨bx2, _, h2⟩ := List.mem_map.mp hc2
      injection h2 with hx hy hz
      have hba : b = a := Int.ofNat.inj hy
      omega
  · refine (List.pairwise_lt_range _).imp ?_
    intro a b hab c hc1 hc2
    obtain ⟨y1, _, hm1⟩ := List.mem_flatMap.mp hc1
    obtain ⟨x1, _, rfl⟩ := List.mem_map.mp hm1
    obtain ⟨y2, _, hm2⟩ := List.mem_flatMap.mp hc2
    obtain ⟨x2, _, h2⟩ := List.mem_map.mp hm2
    injection h2 with hx hy hz
    have hba : b = a := Int.ofNat.inj hz
    omega

/-- The dirty brick coordinates, a filter of the enumeration, have no
duplicates. -/
theorem dirtyBrickCoords_nodup (bm : BrickMap) (dirty_aabb : AABB) :
    (bm.dirtyBrickCoords dirty_aabb).Nodup :=
  (allBrickCoords_nodup bm).filter _

/-- A successful update step leaves every other brick coordinate's entry
untouched. -/
theorem updateStep_lookup_ne (pf : ProfiledSdf) (mm : MouldManager)
    (bm : BrickMap) (threshold : F) (bricks : List (BrickCoord × Brick))
    (c : BrickCoord) (bricks' : List (BrickCoord × Brick))
    (h : BrickMap.updateStep pf mm bm threshold bricks c = some bricks')
    (a : BrickCoord) (ha : a ≠ c) : lookupA bricks' a = lookupA bricks a := by
  unfold BrickMap.updateStep at h
  cases he : mm.evaluate_sdf pf (bm.brickCenter c) with
  | none => rw [he] at h; cases h
  | some s =>
    rw [he] at h
    simp only [Option.some_bind] at h
    by_cases h1 : F.blt s.abs threshold = true
    · rw [if_pos h1] at h
      cases hb : BrickMap.sampledBrick pf mm bm c with
      | none => rw [hb] at h; cases h
      | some b =>
        rw [hb] at h
        simp only [Option.map_some'] at h
        cases h
        exact lookupA_insertA_ne bricks b (Ne.symm ha)
    · rw [if_neg h1] at h
      by_cases h2 : F.blt threshold s = true
      · rw [if_pos h2] at h
        cases h
        exact lookupA_eraseA_ne bricks (Ne.symm ha)
      · rw [if_neg h2] at h
        cases h
        rfl

/-- A successful update fold leaves coordinates outside the processed list
untouched. -/
theorem updateFold_lookup_not_mem (pf : ProfiledSdf) (mm : MouldManager)
    (bm : BrickMap) (threshold : F) :
    ∀ (L : List BrickCoord) (bricks bricks' : List (BrickCoord × Brick)),
    L.foldlM (BrickMap.updateStep pf mm bm threshold) bricks = some bricks' →
    ∀ a, a ∉ L → lookupA bricks' a = lookupA bricks a
  | [], bricks, bricks', h, a, _ => by cases h; rfl
  | c :: L, bricks, bricks', h, a, ha => by
    rw [show (c :: L).foldlM (BrickMap.updateStep pf mm bm threshold) bricks =
      Option.bind (BrickMap.updateStep pf mm bm threshold bricks c) (fun b =>
        L.foldlM (BrickMap.updateStep pf mm bm threshold) b) from rfl] at h
    cases hs : BrickMap.updateStep pf mm bm threshold bricks c with
    | none => rw [hs] at h; cases h
    | some bricks₁ =>
      rw [hs] at h
      simp only [Option.some_bind] at h
      have hrest := updateFold_lookup_not_mem pf mm bm threshold L bricks₁ bricks' h a
        (fun hm => ha (List.mem_cons_of_mem c hm))
      rw [hrest]
      exact updateStep_lookup_ne pf mm bm threshold bricks c bricks₁ hs a
        (fun he => ha (he ▸ List.mem_cons_self c L))

/-- After a successful update fold over distinct coordinates, each
processed coordinate holds the outcome its own step produced: the freshly
sampled brick when the center is surface-adjacent, no entry when the
center value exceeds the threshold. -/
theorem updateFold_lookup_mem (pf : ProfiledSdf) (mm : MouldManager)
    (bm : BrickMap) (threshold : F) :
    ∀ (L : List BrickCoord), L.Nodup →
    ∀ (bricks bricks' : List (BrickCoord × Brick)),
    L.foldlM (BrickMap.updateStep pf mm bm threshold) bricks = some bricks' →
    ∀ c ∈ L, ∀ s, mm.evaluate_sdf pf (bm.brickCenter c) = some s →
      (F.blt s.abs threshold = true →
        ∃ b, BrickMap.sampledBrick pf mm bm c = some b ∧ lookupA bricks' c = some b)
      ∧ (F.blt s.abs threshold = false → F.blt threshold s = true →
          lookupA bricks' c = none)
  | [], _, bricks, bricks', h, c, hc, _, _ => by simp at hc
  | d :: L, hnd, bricks, bricks', h, c, hc, s, hs => by
    rw [show (d :: L).foldlM (BrickMap.updateStep pf mm bm threshold) bricks =
      Option.bind (BrickMap.updateStep pf mm bm threshold bricks d) (fun b =>
        L.foldlM (BrickMap.updateStep pf mm bm threshold) b) from rfl] at h
    cases hstep : BrickMap.updateStep pf mm bm threshold bricks d with
    | none => rw [hstep] at h; cases h
    | some bricks₁ =>
      rw [hstep] at h
      simp only [Option.some_bind] at h
      rcases List.mem_cons.mp hc with hcd | hcL
      · subst hcd
        have hnotin : c ∉ L := (List.nodup_cons.mp hnd).1
        have hpreserve := updateFold_lookup_not_mem pf mm bm threshold L bricks₁
          bricks' h c hnotin
        unfold BrickMap.updateStep at hstep
        rw [hs] at hstep
        simp only [Option.some_bind] at hstep
        constructor
        · intro hlt
          rw [if_pos hlt] at hstep
          cases hb : BrickMap.sampledBrick pf mm bm c with
          | none => rw [hb] at hstep; cases hstep
          | some b =>
            rw [hb] at hstep
            simp only [Option.map_some'] at hstep
            cases hstep
            exact ⟨b, rfl, by rw [hpreserve]; exact lookupA_insertA_self bricks c b⟩
        · intro hge hgt
          rw [if_neg (by simp [hge]), if_pos hgt] at hstep
          cases hstep
          rw [hpreserve]
          exact lookupA_eraseA_self bricks c
      · exact updateFold_lookup_mem pf mm bm threshold L (List.nodup_cons.mp hnd).2
          bricks₁ bricks' h c hcL s hs

/-- Claim C1 (modelled from the spec, see
`BrickMap.update_surface_bricks_in_bounds`): a successful incremental
update re-evaluates the center of every brick whose box overlaps the dirty
AABB expanded by the brick diagonal; a surface-adjacent brick
(`|sdf(center)| < surface_thickness + diagonal`) ends up allocated with all
its voxels freshly re-sampled at their cell centers; a brick whose center
value exceeds the threshold ends up removed from the map; and every brick
coordinate not overlapping the dirty region is left exactly unchanged. -/
theorem c1_incremental_update (pf : ProfiledSdf) (mm : MouldManager)
    (bm : BrickMap) (dirty_aabb : AABB) (surface_thickness : F) (bm' : BrickMap)
    (h : bm.update_surface_bricks_in_bounds pf mm dirty_aabb surface_thickness =
      some bm') :
    (∀ c, c ∉ bm.dirtyBrickCoords dirty_aabb →
      lookupA bm'.bricks c = lookupA bm.bricks c)
    ∧ (∀ c ∈ bm.dirtyBrickCoords dirty_aabb,
        ∀ s, mm.evaluate_sdf pf (bm.brickCenter c) = some s →
        (F.blt s.abs (F.add surface_thickness bm.brickDiagonal) = true →
          ∃ b, BrickMap.sampledBrick pf mm bm c = some b ∧ lookupA bm'.bricks c = some b)
        ∧ (F.blt s.abs (F.add surface_thickness bm.brickDiagonal) = false →
           F.blt (F.add surface_thickness bm.brickDiagonal) s = true →
            lookupA bm'.bricks c = none)) := by
  unfold BrickMap.update_surface_bricks_in_bounds at h
  cases hf : (bm.dirtyBrickCoords dirty_aabb).foldlM
      (BrickMap.updateStep pf mm bm (F.add surface_thickness bm.brickDiagonal))
      bm.bricks with
  | none => rw [hf] at h; cases h
  | some bricks' =>
    rw [hf] at h
    simp only [Option.map_some'] at h
    cases h
    constructor
    · intro c hc
      exact updateFold_lookup_not_mem pf mm bm _ _ bm.bricks bricks' hf c hc
    · intro c hc s hs
      exact updateFold_lookup_mem pf mm bm _ _
        (dirtyBrickCoords_nodup bm dirty_aabb) bm.bricks bricks' hf c hc s hs

/-- A dirty region covering the whole of `bmOneBrick`'s bounds. -/
def dirtyAll : AABB := ⟨originPt, ⟨F.fin 8, F.fin 8, F.fin 8⟩⟩

set_option maxRecDepth 100000 in
/-- Witness for C1: updating `bmOneBrick` (one brick, constant SDF `+1`,
surface thickness 10) over a dirty region covering the grid re-samples the
overlapping brick and stores it. -/
theorem c1_witness :
    ∃ bm' b,
      bmOneBrick.update_surface_bricks_in_bounds pfZero emptyMM dirtyAll
        (F.fin 10) = some bm'
      ∧ BrickMap.sampledBrick pfZero emptyMM bmOneBrick ⟨0, 0, 0⟩ = some b
      ∧ lookupA bm'.bricks ⟨0, 0, 0⟩ = some b := by
  have hupd : (bmOneBrick.update_surface_bricks_in_bounds pfZero emptyMM dirtyAll
      (F.fin 10)).isSome = true := by
    with_unfolding_all decide
  obtain ⟨bm', hbm'⟩ := Option.isSome_iff_exists.mp hupd
  have hmem : (⟨0, 0, 0⟩ : BrickCoord) ∈ bmOneBrick.dirtyBrickCoords dirtyAll := by
    with_unfolding_all decide
  have heval : emptyMM.evaluate_sdf pfZero (bmOneBrick.brickCenter ⟨0, 0, 0⟩) =
      some (F.fin 1) := by
    with_unfolding_all decide
  have hblt : F.blt (F.fin 1).abs (F.add (F.fin 10) bmOneBrick.brickDiagonal) =
      true := by
    with_unfolding_all decide
  obtain ⟨b, hb, hlook⟩ :=
    ((c1_incremental_update pfZero emptyMM bmOneBrick dirtyAll (F.fin 10) bm'
        hbm').2 ⟨0, 0, 0⟩ hmem (F.fin 1) heval).1 hblt
  exact ⟨bm', b, hbm', hb, hlook⟩

end BuildHuman
